import Mathlib

/-!
Verification of the simulation core of PLANE 1990 (`src/project.py`).

The Python source is shallowly embedded over exact rationals (`ℚ`):
Python float arithmetic is modelled as exact real/rational arithmetic, and
the transcendental library calls (`math.cos`, `math.sin`, `math.atan2`) are
abstracted as explicit parameters of the embedded functions, since their
values at the program's headings are irrational.  Comparisons of the form
`math.sqrt d < r` in the source are embedded as the equivalent `d < r ^ 2`
(both sides are nonnegative), so every definition stays executable.
Randomness (`random.choice`, `random.uniform`) is likewise abstracted into
explicit parameters.  Rendering, particles, sound and the camera have no
effect on the simulation state and are omitted.
-/

namespace Plane1990

/-! ### Constants (src/project.py lines 17-48) -/

def SCREEN_WIDTH : ℚ := 800
def SCREEN_HEIGHT : ℚ := 600

def PLAYER_SPEED : ℚ := 3
def ENEMY_SPEED : ℚ := 3/2
def BULLET_SPEED : ℚ := 8
def ENEMY_BULLET_SPEED : ℚ := 5

def PLAYER_SIZE : ℚ := 20
def ENEMY_SIZE : ℚ := 18
def BULLET_SIZE : ℚ := 4
def WALL_SIZE : ℚ := 32

/-- Squaring over the rationals.  The source's squared-distance
expressions `a ** 2` are embedded with `sq` rather than `^` so that every
comparison kernel-reduces on concrete inputs. -/
def sq (x : ℚ) : ℚ := x * x

def MAX_ENEMIES : ℕ := 6
def ENEMY_SPAWN_DELAY : ℚ := 2
def ENEMY_SHOOT_DELAY : ℚ := 1
def ENEMY_HOMING_DELAY : ℚ := 1

def ANIMATION_DURATION : ℚ := 7/10
def SHOOT_COOLDOWN : ℚ := 3/10
def LASER_COOLDOWN : ℚ := 4
def MAX_LASERS : ℕ := 2

/-- One entry of the LEVELS table: obstacle count, hostile target count,
time limit in seconds (an integer in the source). -/
structure Level where
  walls : ℕ
  enemies : ℕ
  time : ℤ
deriving Repr, DecidableEq

/-- The LEVELS table (src lines 43-48). -/
def LEVELS : List Level :=
  [⟨3, 3, 30⟩, ⟨4, 4, 40⟩, ⟨5, 5, 50⟩, ⟨6, 6, 60⟩]

/-- GameState enum (src lines 66-74). -/
inductive GameState where
  | MENU
  | RULES
  | READY
  | PLAYING
  | GAME_OVER
  | WIN
  | LEVEL_COMPLETE
  | HIGH_SCORES
deriving Repr, DecidableEq

/-! ### Walls (class `Wall`, src lines 148-173) -/

/-- A maze wall cell.  In the source `x`, `y`, `width`, `height` are Python
ints; every wall is created with the default 32 x 32 extent. -/
structure Wall where
  x : ℚ
  y : ℚ
  width : ℚ := WALL_SIZE
  height : ℚ := WALL_SIZE
deriving Repr, DecidableEq

/-- `Wall.get_rect` (src lines 156-162).  The source computes
`x - width // 2` etc. with integer floor division; all walls have the even
default extent 32, for which `width // 2 = width / 2`. -/
def Wall.rect (w : Wall) : ℚ × ℚ × ℚ × ℚ :=
  (w.x - w.width / 2, w.x + w.width / 2, w.y - w.height / 2, w.y + w.height / 2)

/-- Membership of a point in a wall rectangle, the test
`left <= x <= right and bottom <= y <= top` used by bullet wall impact
(src line 207) and visibility sampling (src line 448). -/
def pointInWall (x y : ℚ) (w : Wall) : Bool :=
  let r := w.rect
  decide (r.1 ≤ x ∧ x ≤ r.2.1 ∧ r.2.2.1 ≤ y ∧ y ≤ r.2.2.2)

/-! ### Craft (class `Plane`, src lines 234-523)

The fields mirror `Plane.__init__`.  The purely visual fields
(`animation_timer`, `wing_flap`, `color`) are omitted: they never feed back
into the simulation.  `last_shot_time` is written once and never read.
`_last_player_pos`, a dynamic attribute attached by `_update_game`, is an
optional field. -/

structure Craft where
  x : ℚ
  y : ℚ
  angle : ℚ
  isPlayer : Bool
  speed : ℚ
  size : ℚ
  movingUp : Bool := false
  movingDown : Bool := false
  movingLeft : Bool := false
  movingRight : Bool := false
  targetAngle : ℚ := 0
  directionChangeTimer : ℚ := 0
  canSeePlayer : Bool := false
  shootTimer : ℚ := ENEMY_SHOOT_DELAY
  homingTimer : ℚ := 0
  isHoming : Bool := false
  laserCount : ℕ := MAX_LASERS
  laserRechargeTimers : List ℚ := [0, 0]
  shootCooldown : ℚ := 0
  lastPlayerPos : Option (ℚ × ℚ) := none
deriving Repr, DecidableEq

/-- `Plane.__init__` (src lines 237-271): speed and size are selected by
the role flag. -/
def mkCraft (x y : ℚ) (isPlayer : Bool) : Craft :=
  { x := x, y := y, angle := 0, isPlayer := isPlayer,
    speed := if isPlayer then PLAYER_SPEED else ENEMY_SPEED,
    size := if isPlayer then PLAYER_SIZE else ENEMY_SIZE }

/-- `Plane.set_movement` (src lines 273-278): all four flags are assigned
on every call. -/
def Craft.setMovement (c : Craft) (up down left right : Bool) : Craft :=
  { c with movingUp := up, movingDown := down,
           movingLeft := left, movingRight := right }

/-! ### Movement (`Plane.move`, src lines 280-324) -/

/-- The per-tick intent component `dx` of `Plane.move` (src lines 285-300):
for the player the sequential `if` chain lets a later flag override an
earlier one (left sets -1, then right sets 1); a hostile always has
`dx = 1`. -/
def Craft.moveDx (c : Craft) : ℚ :=
  if c.isPlayer then
    if c.movingRight then 1 else if c.movingLeft then -1 else 0
  else 1

/-- The per-tick intent component `dy` (src lines 287-290): up sets 1, then
down overrides with -1; a hostile keeps `dy = 0`. -/
def Craft.moveDy (c : Craft) : ℚ :=
  if c.isPlayer then
    if c.movingDown then -1 else if c.movingUp then 1 else 0
  else 0

/-- Candidate position of `Plane.move` (src lines 302-304).  `cosA` and
`sinA` stand for `math.cos`/`math.sin` of the craft's heading in radians
(after the player's heading update); the factors
`(1 if dx != 0 or not is_player else 0)` are kept verbatim. -/
def moveCandidate (c : Craft) (cosA sinA : ℚ) : ℚ × ℚ :=
  (c.x + cosA * c.speed * (if c.moveDx ≠ 0 ∨ ¬c.isPlayer then 1 else 0),
   c.y + sinA * c.speed * (if c.moveDy ≠ 0 ∨ ¬c.isPlayer then 1 else 0))

/-- The body of the wall test inside `Plane.move` (src lines 308-319): the
candidate is blocked by a wall when the distance from the candidate to the
wall center is below the wall half-extent plus the craft size on both
axes. -/
def blockedBy (size : ℚ) (px py : ℚ) (w : Wall) : Bool :=
  let r := w.rect
  let distX := |px - (r.1 + r.2.1) / 2|
  let distY := |py - (r.2.2.1 + r.2.2.2) / 2|
  decide (distX < (r.2.1 - r.1) / 2 + size ∧ distY < (r.2.2.2 - r.2.2.1) / 2 + size)

/-- The `for wall in walls: ... break` loop of `Plane.move` (src lines
307-319) computing `can_move`. -/
def canMoveLoop (size : ℚ) (px py : ℚ) : List Wall → Bool
  | [] => true
  | w :: ws => if blockedBy size px py w then false else canMoveLoop size px py ws

/-- `Plane.move` (src lines 280-324).  `aDeg` stands for
`math.degrees(math.atan2(dy, dx))`, the player's heading update; `cosA`,
`sinA` stand for the cosine and sine of the resulting heading.  The
heading update touches only `angle`, which the candidate (whose
trigonometry is already abstracted into `cosA`, `sinA`) does not read, so
the candidate is computed from the incoming craft.  The position is
committed only when the candidate passes the screen-bounds check and the
wall loop. -/
def move (c : Craft) (aDeg cosA sinA : ℚ) (walls : List Wall) : Craft :=
  let c1 := if c.isPlayer ∧ (c.moveDx ≠ 0 ∨ c.moveDy ≠ 0) then
      { c with angle := aDeg } else c
  let cand := moveCandidate c cosA sinA
  if c.size ≤ cand.1 ∧ cand.1 ≤ SCREEN_WIDTH - c.size ∧
     c.size ≤ cand.2 ∧ cand.2 ≤ SCREEN_HEIGHT - c.size ∧
     canMoveLoop c.size cand.1 cand.2 walls = true then
    { c1 with x := cand.1, y := cand.2 }
  else c1

/-! ### Lemmas about the wall loop -/

/-- A craft clears a wall exactly when, on at least one axis, the distance
from the candidate to the wall center is at least the wall half-extent
plus the craft size (the claim's expanded-AABB formulation). -/
theorem blockedBy_eq_false_iff (size px py : ℚ) (w : Wall) :
    blockedBy size px py w = false ↔
      w.width / 2 + size ≤ |px - w.x| ∨ w.height / 2 + size ≤ |py - w.y| := by
  have hx : (w.rect.1 + w.rect.2.1) / 2 = w.x := by
    simp [Wall.rect]
  have hy : (w.rect.2.2.1 + w.rect.2.2.2) / 2 = w.y := by
    simp [Wall.rect]
  have hw : (w.rect.2.1 - w.rect.1) / 2 = w.width / 2 := by
    simp [Wall.rect]
  have hh : (w.rect.2.2.2 - w.rect.2.2.1) / 2 = w.height / 2 := by
    simp [Wall.rect]
  simp only [blockedBy, hx, hy, hw, hh, decide_eq_false_iff_not]
  constructor
  · intro h
    by_cases h1 : |px - w.x| < w.width / 2 + size
    · right
      by_contra h2
      exact h ⟨h1, lt_of_not_le h2⟩
    · left
      exact le_of_not_lt h1
  · rintro (h | h) ⟨h1, h2⟩
    · exact absurd h1 (not_lt.mpr h)
    · exact absurd h2 (not_lt.mpr h)

theorem canMoveLoop_eq_true_iff (size px py : ℚ) (walls : List Wall) :
    canMoveLoop size px py walls = true ↔
      ∀ w ∈ walls, blockedBy size px py w = false := by
  induction walls with
  | nil => simp [canMoveLoop]
  | cons w ws ih =>
    simp only [canMoveLoop, List.mem_cons]
    by_cases h : blockedBy size px py w
    · simp [h]
    · simp only [Bool.not_eq_true] at h
      simp [h, ih]

/-- The commit condition of the claim: the candidate lies in
`[size, SCREEN_WIDTH - size] x [size, SCREEN_HEIGHT - size]` and, for every
wall, the distance from the candidate to the wall center is at least the
wall half-extent plus the craft size on at least one axis. -/
def CommitOk (c : Craft) (cand : ℚ × ℚ) (walls : List Wall) : Prop :=
  c.size ≤ cand.1 ∧ cand.1 ≤ SCREEN_WIDTH - c.size ∧
  c.size ≤ cand.2 ∧ cand.2 ≤ SCREEN_HEIGHT - c.size ∧
  ∀ w ∈ walls,
    w.width / 2 + c.size ≤ |cand.1 - w.x| ∨
    w.height / 2 + c.size ≤ |cand.2 - w.y|

instance (c : Craft) (cand : ℚ × ℚ) (walls : List Wall) :
    Decidable (CommitOk c cand walls) := by
  unfold CommitOk; infer_instance

/-- C1.  For every craft and every call to `move`, the position is either
left completely unchanged for the tick or set atomically to the candidate
position, and the candidate is committed exactly when `CommitOk` holds
(screen bounds on both axes plus the expanded-AABB test against every
wall).  There is no partial or per-axis movement. -/
theorem move_commit_policy (c : Craft) (aDeg cosA sinA : ℚ) (walls : List Wall) :
    ((move c aDeg cosA sinA walls).x, (move c aDeg cosA sinA walls).y) =
      (if CommitOk c (moveCandidate c cosA sinA) walls then
        moveCandidate c cosA sinA
      else (c.x, c.y)) ∧
    (((move c aDeg cosA sinA walls).x, (move c aDeg cosA sinA walls).y) = (c.x, c.y) ∨
     ((move c aDeg cosA sinA walls).x, (move c aDeg cosA sinA walls).y) =
       moveCandidate c cosA sinA) := by
  have hiff : (c.size ≤ (moveCandidate c cosA sinA).1 ∧
      (moveCandidate c cosA sinA).1 ≤ SCREEN_WIDTH - c.size ∧
      c.size ≤ (moveCandidate c cosA sinA).2 ∧
      (moveCandidate c cosA sinA).2 ≤ SCREEN_HEIGHT - c.size ∧
      canMoveLoop c.size (moveCandidate c cosA sinA).1
        (moveCandidate c cosA sinA).2 walls = true) ↔
      CommitOk c (moveCandidate c cosA sinA) walls := by
    unfold CommitOk
    rw [canMoveLoop_eq_true_iff]
    constructor
    · rintro ⟨h1, h2, h3, h4, h5⟩
      exact ⟨h1, h2, h3, h4, fun w hw => (blockedBy_eq_false_iff _ _ _ w).mp (h5 w hw)⟩
    · rintro ⟨h1, h2, h3, h4, h5⟩
      exact ⟨h1, h2, h3, h4, fun w hw => (blockedBy_eq_false_iff _ _ _ w).mpr (h5 w hw)⟩
  have hxy : ((move c aDeg cosA sinA walls).x, (move c aDeg cosA sinA walls).y) =
      (if (c.size ≤ (moveCandidate c cosA sinA).1 ∧
          (moveCandidate c cosA sinA).1 ≤ SCREEN_WIDTH - c.size ∧
          c.size ≤ (moveCandidate c cosA sinA).2 ∧
          (moveCandidate c cosA sinA).2 ≤ SCREEN_HEIGHT - c.size ∧
          canMoveLoop c.size (moveCandidate c cosA sinA).1
            (moveCandidate c cosA sinA).2 walls = true) then
        moveCandidate c cosA sinA
      else (c.x, c.y)) := by
    simp only [move]
    by_cases hp : c.isPlayer ∧ (c.moveDx ≠ 0 ∨ c.moveDy ≠ 0)
    · simp only [if_pos hp]
      split <;> rfl
    · simp only [if_neg hp]
      split <;> rfl
  constructor
  · rw [hxy]
    exact if_congr hiff rfl rfl
  · rw [hxy]
    split
    · right; rfl
    · left; rfl

/-! ### Angle arithmetic

Python's `%` on floats returns a result in `[0, m)` for a positive modulus
`m`: `x % m = x - m * floor(x / m)`. -/

/-- Python float modulo for a positive modulus. -/
def pymod (x m : ℚ) : ℚ := x - m * ⌊x / m⌋

theorem pymod_nonneg (x : ℚ) : 0 ≤ pymod x 360 := by
  unfold pymod
  have h := Int.floor_le (x / 360)
  nlinarith [h]

theorem pymod_lt (x : ℚ) : pymod x 360 < 360 := by
  unfold pymod
  have h := Int.lt_floor_add_one (x / 360)
  nlinarith [h]

/-- The signed angle normalisation used by `_update_enemy`
(src lines 378-380 and 399-401):
`d = (target - angle) % 360; if d > 180: d -= 360`. -/
def angleDiffSigned (target angle : ℚ) : ℚ :=
  let d := pymod (target - angle) 360
  if 180 < d then d - 360 else d

/-- The source's computation is the signed shortest angular difference: it
lies in `(-180, 180]` and is congruent to `target - angle` modulo 360. -/
theorem angleDiffSigned_spec (target angle : ℚ) :
    -180 < angleDiffSigned target angle ∧ angleDiffSigned target angle ≤ 180 ∧
      ∃ k : ℤ, target - angle - angleDiffSigned target angle = 360 * k := by
  unfold angleDiffSigned
  have h0 := pymod_nonneg (target - angle)
  have h1 := pymod_lt (target - angle)
  have hk : target - angle - pymod (target - angle) 360 =
      360 * ⌊(target - angle) / 360⌋ := by
    unfold pymod; ring
  by_cases h : 180 < pymod (target - angle) 360
  · rw [if_pos h]
    refine ⟨by linarith, by linarith, ⟨⌊(target - angle) / 360⌋ + 1, ?_⟩⟩
    push_cast
    linarith [hk]
  · rw [if_neg h]
    exact ⟨by linarith, by linarith [le_of_not_lt h],
      ⟨⌊(target - angle) / 360⌋, by linarith [hk]⟩⟩

/-- The folded absolute difference computed by `_check_player_visibility`
(src lines 432-434): `d = abs((bearing - angle) % 360); if d > 180:
d = 360 - d`.  It equals the absolute value of the signed shortest
difference. -/
theorem foldedAbs_eq_abs_angleDiffSigned (bearing angle : ℚ) :
    (if 180 < |pymod (bearing - angle) 360| then 360 - |pymod (bearing - angle) 360|
     else |pymod (bearing - angle) 360|) = |angleDiffSigned bearing angle| := by
  have h0 := pymod_nonneg (bearing - angle)
  have h1 := pymod_lt (bearing - angle)
  rw [abs_of_nonneg h0]
  unfold angleDiffSigned
  by_cases h : 180 < pymod (bearing - angle) 360
  · rw [if_pos h, if_pos h, abs_of_nonpos (by linarith)]
    ring
  · rw [if_neg h, if_neg h, abs_of_nonneg h0]

/-! ### Line-of-sight check (`Plane._check_player_visibility`, src lines
412-453) -/

/-- The sampling step count `int(distance / 10)` (src line 441), expressed
on the squared distance: `floor(sqrt(d2) / 10) = Nat.sqrt (floor (d2 / 100))`
for `d2 >= 0` (proved in `stepsFor_eq_floor_dist_div10` below). -/
def stepsFor (d2 : ℚ) : ℕ := Nat.sqrt (⌊d2 / 100⌋).toNat

/-- For a nonnegative squared distance, `stepsFor d2` is exactly
`floor (sqrt d2 / 10)`, i.e. the source's `int(distance / 10)`. -/
theorem stepsFor_eq_floor_dist_div10 (d2 : ℚ) (h : 0 ≤ d2) :
    ((stepsFor d2 : ℕ) : ℝ) ≤ Real.sqrt (d2 : ℝ) / 10 ∧
      Real.sqrt (d2 : ℝ) / 10 < (stepsFor d2 : ℕ) + 1 := by
  have h100 : Real.sqrt (d2 : ℝ) / 10 = Real.sqrt ((d2 : ℝ) / 100) := by
    rw [show ((d2 : ℝ) / 100) = (d2 : ℝ) * (1 / 100) by ring, Real.sqrt_mul (by exact_mod_cast h)]
    rw [show (1 : ℝ) / 100 = (1 / 10 : ℝ) ^ 2 by norm_num, Real.sqrt_sq (by norm_num)]
    ring
  set m : ℕ := (⌊d2 / 100⌋).toNat with hm
  have hfl : (⌊d2 / 100⌋ : ℤ) = (m : ℤ) := by
    rw [hm, Int.toNat_of_nonneg (Int.floor_nonneg.mpr (by positivity))]
  have hmle : ((m : ℚ)) ≤ d2 / 100 := by
    have := Int.floor_le (d2 / 100)
    rw [hfl] at this
    exact_mod_cast this
  have hmlt : d2 / 100 < (m : ℚ) + 1 := by
    have := Int.lt_floor_add_one (d2 / 100)
    rw [hfl] at this
    exact_mod_cast this
  have hsq1 : (Nat.sqrt m) ^ 2 ≤ m := Nat.sqrt_le' m
  have hsq2 : m < (Nat.sqrt m + 1) ^ 2 := Nat.lt_succ_sqrt' m
  constructor
  · rw [h100]
    have : ((Nat.sqrt m : ℝ)) ^ 2 ≤ ((d2 : ℝ) / 100) := by
      have h1 : ((Nat.sqrt m ^ 2 : ℕ) : ℝ) ≤ (m : ℝ) := by exact_mod_cast hsq1
      have h2 : ((m : ℝ)) ≤ (d2 : ℝ) / 100 := by exact_mod_cast hmle
      push_cast at h1
      linarith
    calc ((stepsFor d2 : ℕ) : ℝ) = (Nat.sqrt m : ℝ) := by rw [stepsFor, hm]
    _ ≤ Real.sqrt ((d2 : ℝ) / 100) := by
        rw [show (Nat.sqrt m : ℝ) = Real.sqrt ((Nat.sqrt m : ℝ) ^ 2) by
          rw [Real.sqrt_sq (by positivity)]]
        exact Real.sqrt_le_sqrt this
  · rw [h100]
    have hlt : ((d2 : ℝ) / 100) < ((Nat.sqrt m : ℝ) + 1) ^ 2 := by
      have h1 : ((m : ℝ)) + 1 ≤ (((Nat.sqrt m + 1) ^ 2 : ℕ) : ℝ) := by
        exact_mod_cast hsq2
      have h2 : (d2 : ℝ) / 100 < (m : ℝ) + 1 := by exact_mod_cast hmlt
      push_cast at h1
      nlinarith
    have := Real.sqrt_lt_sqrt (by positivity) hlt
    rw [Real.sqrt_sq (by positivity)] at this
    calc Real.sqrt ((d2 : ℝ) / 100) < (Nat.sqrt m : ℝ) + 1 := this
    _ = ((stepsFor d2 : ℕ) : ℝ) + 1 := by rw [stepsFor, hm]

/-- The wall-sampling loop of `_check_player_visibility` (src lines
441-450): sample points `(x + dx*i/steps, y + dy*i/steps)` for
`i = 1 .. steps`; the loop exits early (sight blocked) when a sample lies
inside some wall. -/
def samplesHitWall (ex ey dx dy : ℚ) (steps : ℕ) (walls : List Wall) : Bool :=
  (List.range steps).any fun i =>
    walls.any (pointInWall (ex + dx * ((i : ℚ) + 1) / (steps : ℚ))
                           (ey + dy * ((i : ℚ) + 1) / (steps : ℚ)))

/-- The boolean result of `_check_player_visibility` (src lines 412-453);
`bearing` stands for `math.degrees(math.atan2(dy, dx))`.  The source
compares `sqrt(dx^2+dy^2) > 300`, embedded as `dx^2+dy^2 > 300^2`. -/
def canSeeResult (e p : Craft) (bearing : ℚ) (walls : List Wall) : Bool :=
  let dx := p.x - e.x
  let dy := p.y - e.y
  let d2 := sq dx + sq dy
  if sq 300 < d2 then false
  else
    let ad0 := |pymod (bearing - e.angle) 360|
    let ad := if 180 < ad0 then 360 - ad0 else ad0
    if 45 < ad then false
    else if samplesHitWall e.x e.y dx dy (stepsFor d2) walls then false
    else true

/-- `Plane._check_player_visibility`: every branch of the source assigns
its verdict to `self.can_see_player` and returns it, so the craft update
is exactly the field assignment. -/
def checkVisibility (e p : Craft) (bearing : ℚ) (walls : List Wall) : Craft :=
  { e with canSeePlayer := canSeeResult e p bearing walls }

/-- C5.  The visibility check yields `can_see_player = false` whenever the
squared distance to the player exceeds `300^2` (at exactly 300 units it
can still be true, because the source's test is strict), false whenever
the absolute shortest angular difference between the bearing to the
player and the hostile heading exceeds 45 degrees, and otherwise is true
if and only if no sample point of the hostile-to-player segment (sampled
at `int(distance/10)` equidistant interior points, i.e. steps of roughly
10 units) lies inside a wall rectangle.  The final conjunct certifies
that `stepsFor` is exactly the source's `int(distance / 10)`. -/
theorem visibility_characterization (e p : Craft) (bearing : ℚ) (walls : List Wall) :
    (canSeeResult e p bearing walls =
      (decide (sq (p.x - e.x) + sq (p.y - e.y) ≤ sq 300) &&
       decide (|angleDiffSigned bearing e.angle| ≤ 45) &&
       !samplesHitWall e.x e.y (p.x - e.x) (p.y - e.y)
          (stepsFor (sq (p.x - e.x) + sq (p.y - e.y))) walls)) ∧
    ((checkVisibility e p bearing walls).canSeePlayer = canSeeResult e p bearing walls) ∧
    (∀ d2 : ℚ, 0 ≤ d2 →
      ((stepsFor d2 : ℕ) : ℝ) ≤ Real.sqrt (d2 : ℝ) / 10 ∧
        Real.sqrt (d2 : ℝ) / 10 < (stepsFor d2 : ℕ) + 1) := by
  refine ⟨?_, rfl, stepsFor_eq_floor_dist_div10⟩
  show (if sq 300 < sq (p.x - e.x) + sq (p.y - e.y) then false
    else
      if 45 < (if 180 < |pymod (bearing - e.angle) 360| then
          360 - |pymod (bearing - e.angle) 360| else |pymod (bearing - e.angle) 360|) then false
      else if samplesHitWall e.x e.y (p.x - e.x) (p.y - e.y)
          (stepsFor (sq (p.x - e.x) + sq (p.y - e.y))) walls = true then false
      else true) = _
  rw [foldedAbs_eq_abs_angleDiffSigned bearing e.angle]
  by_cases h1 : sq (300 : ℚ) < sq (p.x - e.x) + sq (p.y - e.y)
  · rw [if_pos h1]
    have : ¬ (sq (p.x - e.x) + sq (p.y - e.y) ≤ sq 300) := not_le.mpr h1
    simp [this]
  · rw [if_neg h1]
    have h1' : sq (p.x - e.x) + sq (p.y - e.y) ≤ sq 300 := le_of_not_lt h1
    by_cases h2 : (45 : ℚ) < |angleDiffSigned bearing e.angle|
    · rw [if_pos h2]
      have : ¬ (|angleDiffSigned bearing e.angle| ≤ 45) := not_le.mpr h2
      simp [this]
    · rw [if_neg h2]
      have h2' : |angleDiffSigned bearing e.angle| ≤ 45 := le_of_not_lt h2
      by_cases h3 : samplesHitWall e.x e.y (p.x - e.x) (p.y - e.y)
          (stepsFor (sq (p.x - e.x) + sq (p.y - e.y))) walls
      · rw [if_pos h3]
        simp [h1', h2', h3]
      · rw [if_neg h3]
        simp only [Bool.not_eq_true] at h3
        simp [h1', h2', h3]

/-! ### Hostile AI (`Plane._update_enemy`, src lines 352-410) -/

/-- The homing branch of `_update_enemy` (src lines 366-387): enter homing
(setting the 1.0 s engagement delay) when not already homing, count a
positive delay down by `dt`, and once the delay is zero or below turn
toward the player by 20% of the signed shortest angular difference, pin
the target heading to the bearing and cancel the random-direction
timer. -/
def enemyHomingPhase (e : Craft) (bearing dt : ℚ) : Craft :=
  let e1 := if ¬ e.isHoming then
      { e with isHoming := true, homingTimer := ENEMY_HOMING_DELAY } else e
  let e2 := if 0 < e1.homingTimer then
      { e1 with homingTimer := e1.homingTimer - dt } else e1
  if e2.homingTimer ≤ 0 then
    { e2 with angle := e2.angle + angleDiffSigned bearing e2.angle * (1/5),
              targetAngle := bearing,
              directionChangeTimer := 0 }
  else e2

/-- The patrol branch of `_update_enemy` (src lines 388-403): leave homing,
reset the 1.0 s delay, pick a fresh random cardinal target when the
random-direction timer expired, and turn toward the target heading by 5%
of the signed shortest angular difference. -/
def enemyPatrolPhase (e : Craft) (randTarget randTimer : ℚ) : Craft :=
  let e1 := { e with isHoming := false, homingTimer := ENEMY_HOMING_DELAY }
  let e2 := if e1.directionChangeTimer ≤ 0 then
      { e1 with targetAngle := randTarget, directionChangeTimer := randTimer }
    else e1
  { e2 with angle := e2.angle + angleDiffSigned e2.targetAngle e2.angle * (1/20) }

/-- The shooting-cooldown countdown at the end of `_update_enemy`
(src lines 409-410). -/
def shootTimerStep (e : Craft) (dt : ℚ) : Craft :=
  if 0 < e.shootTimer then { e with shootTimer := e.shootTimer - dt } else e

/-- `Plane._update_enemy` for a present player.  Parameters standing in
for library calls: `bearing` for `math.degrees(math.atan2(dy_to_player,
dx_to_player))` (used both for homing and for the visibility check, which
recomputes the same value), `randTarget` for `random.choice([0, 90, 180,
270])` and `randTimer` for `random.uniform(1, 3)`.  The source's
`distance_to_player < 200` (with `distance = sqrt(dx^2+dy^2)`) is
embedded as the equivalent squared comparison; the source computes the
distance after the random-direction-timer decrement, which does not touch
the position, so it is computed from the incoming craft here. -/
def updateEnemyAI (e p : Craft) (bearing randTarget randTimer : ℚ)
    (walls : List Wall) (dt : ℚ) : Craft :=
  shootTimerStep
    (checkVisibility
      (if sq (p.x - e.x) + sq (p.y - e.y) < sq 200 then
        enemyHomingPhase
          { e with directionChangeTimer := e.directionChangeTimer - dt } bearing dt
      else
        enemyPatrolPhase
          { e with directionChangeTimer := e.directionChangeTimer - dt }
          randTarget randTimer)
      p bearing walls)
    dt

theorem shootStep_vis_angle (x p : Craft) (bearing dt : ℚ) (walls : List Wall) :
    (shootTimerStep (checkVisibility x p bearing walls) dt).angle = x.angle := by
  unfold shootTimerStep checkVisibility
  split <;> rfl

theorem shootStep_vis_isHoming (x p : Craft) (bearing dt : ℚ) (walls : List Wall) :
    (shootTimerStep (checkVisibility x p bearing walls) dt).isHoming = x.isHoming := by
  unfold shootTimerStep checkVisibility
  split <;> rfl

theorem shootStep_vis_homingTimer (x p : Craft) (bearing dt : ℚ) (walls : List Wall) :
    (shootTimerStep (checkVisibility x p bearing walls) dt).homingTimer =
      x.homingTimer := by
  unfold shootTimerStep checkVisibility
  split <;> rfl

theorem shootStep_vis_targetAngle (x p : Craft) (bearing dt : ℚ) (walls : List Wall) :
    (shootTimerStep (checkVisibility x p bearing walls) dt).targetAngle =
      x.targetAngle := by
  unfold shootTimerStep checkVisibility
  split <;> rfl

theorem shootStep_vis_dirTimer (x p : Craft) (bearing dt : ℚ) (walls : List Wall) :
    (shootTimerStep (checkVisibility x p bearing walls) dt).directionChangeTimer =
      x.directionChangeTimer := by
  unfold shootTimerStep checkVisibility
  split <;> rfl

/-- The homing timer at the turn decision point of one `_update_enemy`
tick with the player within 200 units: on entry the timer is set to
`ENEMY_HOMING_DELAY` (1.0 s), then a positive timer is counted down by
`dt` before the turn check. -/
def homingTimerAfter (e : Craft) (dt : ℚ) : ℚ :=
  let t0 := if e.isHoming then e.homingTimer else ENEMY_HOMING_DELAY
  if 0 < t0 then t0 - dt else t0

theorem homingPhase_isHoming (x : Craft) (bearing dt : ℚ) :
    (enemyHomingPhase x bearing dt).isHoming = true := by
  simp only [enemyHomingPhase]
  by_cases hh : x.isHoming <;> simp only [hh] <;> split_ifs <;> simp_all

theorem homingPhase_homingTimer (x : Craft) (bearing dt : ℚ) :
    (enemyHomingPhase x bearing dt).homingTimer = homingTimerAfter x dt := by
  simp only [enemyHomingPhase, homingTimerAfter]
  by_cases hh : x.isHoming <;> simp only [hh] <;> split_ifs <;> simp_all

theorem homingPhase_waiting (x : Craft) (bearing dt : ℚ)
    (h : 0 < homingTimerAfter x dt) :
    (enemyHomingPhase x bearing dt).angle = x.angle ∧
      (enemyHomingPhase x bearing dt).targetAngle = x.targetAngle := by
  have := homingPhase_homingTimer x bearing dt
  simp only [enemyHomingPhase, homingTimerAfter] at *
  by_cases hh : x.isHoming <;> simp only [hh] at * <;>
    split_ifs at * <;> simp_all <;> linarith

theorem homingPhase_turn (x : Craft) (bearing dt : ℚ)
    (h : homingTimerAfter x dt ≤ 0) :
    (enemyHomingPhase x bearing dt).angle =
        x.angle + angleDiffSigned bearing x.angle * (1/5) ∧
      (enemyHomingPhase x bearing dt).targetAngle = bearing ∧
      (enemyHomingPhase x bearing dt).directionChangeTimer = 0 := by
  simp only [enemyHomingPhase, homingTimerAfter] at *
  by_cases hh : x.isHoming <;> simp only [hh] at * <;>
    split_ifs at * <;> simp_all

theorem patrolPhase_isHoming (x : Craft) (randTarget randTimer : ℚ) :
    (enemyPatrolPhase x randTarget randTimer).isHoming = false := by
  simp only [enemyPatrolPhase]
  split_ifs <;> rfl

theorem patrolPhase_homingTimer (x : Craft) (randTarget randTimer : ℚ) :
    (enemyPatrolPhase x randTarget randTimer).homingTimer = ENEMY_HOMING_DELAY := by
  simp only [enemyPatrolPhase]
  split_ifs <;> rfl

/-- C4.  On any tick with the player strictly within 200 units the hostile
is in the homing state afterwards (entering it, with the timer set to
1.0 s, if it was not homing before); while the post-countdown timer is
still positive its heading and target heading are not changed; once the
timer is zero or below, its heading is incremented by exactly 0.2 times
the signed shortest angular difference between the bearing to the player
and its heading, the target heading is set to that bearing, and the
random-direction timer is cancelled.  At distance at least 200 units the
hostile leaves homing and the homing timer is reset to 1.0 s.  The last
conjunct certifies that `angleDiffSigned` is the signed shortest angular
difference. -/
theorem update_enemy_homing (e p : Craft) (bearing randTarget randTimer dt : ℚ)
    (walls : List Wall) :
    (sq (p.x - e.x) + sq (p.y - e.y) < sq 200 →
      (updateEnemyAI e p bearing randTarget randTimer walls dt).isHoming = true ∧
      (updateEnemyAI e p bearing randTarget randTimer walls dt).homingTimer =
        homingTimerAfter e dt) ∧
    (sq (p.x - e.x) + sq (p.y - e.y) < sq 200 → 0 < homingTimerAfter e dt →
      (updateEnemyAI e p bearing randTarget randTimer walls dt).angle = e.angle ∧
      (updateEnemyAI e p bearing randTarget randTimer walls dt).targetAngle =
        e.targetAngle) ∧
    (sq (p.x - e.x) + sq (p.y - e.y) < sq 200 → homingTimerAfter e dt ≤ 0 →
      (updateEnemyAI e p bearing randTarget randTimer walls dt).angle =
        e.angle + angleDiffSigned bearing e.angle * (1/5) ∧
      (updateEnemyAI e p bearing randTarget randTimer walls dt).targetAngle = bearing ∧
      (updateEnemyAI e p bearing randTarget randTimer walls dt).directionChangeTimer
        = 0) ∧
    (sq 200 ≤ sq (p.x - e.x) + sq (p.y - e.y) →
      (updateEnemyAI e p bearing randTarget randTimer walls dt).isHoming = false ∧
      (updateEnemyAI e p bearing randTarget randTimer walls dt).homingTimer =
        ENEMY_HOMING_DELAY) ∧
    (-180 < angleDiffSigned bearing e.angle ∧
      angleDiffSigned bearing e.angle ≤ 180 ∧
      ∃ k : ℤ, bearing - e.angle - angleDiffSigned bearing e.angle = 360 * k) := by
  have hdec : homingTimerAfter
      { e with directionChangeTimer := e.directionChangeTimer - dt } dt =
      homingTimerAfter e dt := rfl
  refine ⟨?_, ?_, ?_, ?_, angleDiffSigned_spec bearing e.angle⟩
  · intro hd
    unfold updateEnemyAI
    rw [if_pos hd]
    rw [shootStep_vis_isHoming, shootStep_vis_homingTimer,
        homingPhase_isHoming, homingPhase_homingTimer, hdec]
    exact ⟨rfl, rfl⟩
  · intro hd ht
    unfold updateEnemyAI
    rw [if_pos hd]
    rw [shootStep_vis_angle, shootStep_vis_targetAngle]
    have := homingPhase_waiting
      { e with directionChangeTimer := e.directionChangeTimer - dt } bearing dt
      (by rw [hdec]; exact ht)
    exact this
  · intro hd ht
    unfold updateEnemyAI
    rw [if_pos hd]
    rw [shootStep_vis_angle, shootStep_vis_targetAngle, shootStep_vis_dirTimer]
    have := homingPhase_turn
      { e with directionChangeTimer := e.directionChangeTimer - dt } bearing dt
      (by rw [hdec]; exact ht)
    exact this
  · intro hd
    unfold updateEnemyAI
    rw [if_neg (not_lt.mpr hd)]
    rw [shootStep_vis_isHoming, shootStep_vis_homingTimer,
        patrolPhase_isHoming, patrolPhase_homingTimer]
    exact ⟨rfl, rfl⟩

/-- A hostile already homing with an expired delay, 100 units from the
player. -/
def demoEnemy : Craft := { mkCraft 0 0 false with isHoming := true, homingTimer := 0 }

/-- A hostile 400 units from the player. -/
def demoFarEnemy : Craft := mkCraft 500 0 false

def demoPlayer : Craft := mkCraft 100 0 true

theorem update_enemy_homing_witness :
    ((updateEnemyAI demoEnemy demoPlayer 90 0 0 [] (1/60)).angle =
      demoEnemy.angle + angleDiffSigned 90 demoEnemy.angle * (1/5)) ∧
    ((updateEnemyAI demoFarEnemy demoPlayer 90 0 0 [] (1/60)).isHoming = false) :=
  ⟨((update_enemy_homing demoEnemy demoPlayer 90 0 0 (1/60) []).2.2.1
      (by norm_num [demoEnemy, demoPlayer, mkCraft, sq])
      (by norm_num [demoEnemy, homingTimerAfter, mkCraft])).1,
   ((update_enemy_homing demoFarEnemy demoPlayer 90 0 0 (1/60) []).2.2.2.1
      (by norm_num [demoFarEnemy, demoPlayer, mkCraft, sq])).1⟩

theorem visibility_characterization_witness :
    (canSeeResult demoEnemy demoPlayer 0 [] =
      (decide (sq (demoPlayer.x - demoEnemy.x) + sq (demoPlayer.y - demoEnemy.y)
          ≤ sq 300) &&
       decide (|angleDiffSigned 0 demoEnemy.angle| ≤ 45) &&
       !samplesHitWall demoEnemy.x demoEnemy.y (demoPlayer.x - demoEnemy.x)
          (demoPlayer.y - demoEnemy.y)
          (stepsFor (sq (demoPlayer.x - demoEnemy.x) +
            sq (demoPlayer.y - demoEnemy.y))) [])) ∧
    (((stepsFor 90000 : ℕ) : ℝ) ≤ Real.sqrt ((90000 : ℚ) : ℝ) / 10 ∧
      Real.sqrt ((90000 : ℚ) : ℝ) / 10 < (stepsFor 90000 : ℕ) + 1) :=
  ⟨(visibility_characterization demoEnemy demoPlayer 0 []).1,
   (visibility_characterization demoEnemy demoPlayer 0 []).2.2 90000 (by norm_num)⟩

/-! ### Bullets (class `Bullet`, src lines 176-231) -/

/-- A projectile.  `trail_timer`/`trail_interval` only drive the particle
system and are omitted. -/
structure Bullet where
  x : ℚ
  y : ℚ
  angle : ℚ
  isPlayer : Bool
deriving Repr, DecidableEq

/-- `Bullet.__init__`: side-dependent speed. -/
def Bullet.speed (b : Bullet) : ℚ :=
  if b.isPlayer then BULLET_SPEED else ENEMY_BULLET_SPEED

/-- `Bullet.update` (src lines 191-215): advance along the heading
(`cosA`, `sinA` stand for cos/sin of the bullet angle), destroy the bullet
without committing the position when the new position lands inside any
wall, commit otherwise.  `none` = destroyed. -/
def bulletStep (b : Bullet) (cosA sinA : ℚ) (walls : List Wall) : Option Bullet :=
  let nx := b.x + cosA * b.speed
  let ny := b.y + sinA * b.speed
  if walls.any (pointInWall nx ny) then none
  else some { b with x := nx, y := ny }

/-- `Bullet.is_off_screen` (src lines 217-220). -/
def Bullet.isOffScreen (b : Bullet) : Bool :=
  decide (b.x < 0 ∨ SCREEN_WIDTH < b.x ∨ b.y < 0 ∨ SCREEN_HEIGHT < b.y)

/-- The bullet-list update loops of `_update_game` (src lines 1479-1489):
a bullet is removed when its step destroys it on a wall or the committed
position is off screen.  `trig i` abstracts cos/sin of the i-th bullet's
heading. -/
def updateBullets (bs : List Bullet) (trig : ℕ → ℚ × ℚ) (walls : List Wall) :
    List Bullet :=
  (bs.enum.filterMap fun ib =>
    match bulletStep ib.2 (trig ib.1).1 (trig ib.1).2 walls with
    | none => none
    | some b => if b.isOffScreen then none else some b)

/-! ### Session state (class `Plane1990`, src lines 688-748)

Only the fields that feed the simulation are kept; particles, camera,
buttons geometry (modelled separately as static rectangles) and sounds are
visual-only. -/

structure GState where
  state : GameState
  walls : List Wall
  player : Option Craft
  enemies : List Craft
  bullets : List Bullet
  enemyBullets : List Bullet
  currentLevel : ℕ
  score : ℤ
  enemiesKilled : ℕ
  timeSurvived : ℚ
  nameInput : String
  nameInputActive : Bool
  freeSpawnAreas : List (ℚ × ℚ)
  enemySpawnTimer : ℚ
  gameTime : ℚ
  levelStartTime : ℚ
  isShooting : Bool
  animationTimer : ℚ
  submittedScores : List (String × ℤ × ℕ)
deriving Repr

/-! ### Collision resolution (`Plane1990._check_collisions`, src lines
1531-1587) -/

/-- Squared Euclidean distance; the source compares
`sqrt((ax-bx)^2+(ay-by)^2) < r`, embedded as the squared comparison. -/
def sqDist (ax ay bx by' : ℚ) : ℚ := sq (ax - bx) + sq (ay - by')

/-- The bullet-vs-hostile hit test (src line 1541):
`distance < ENEMY_SIZE + BULLET_SIZE`. -/
def bulletHitsEnemy (b : Bullet) (e : Craft) : Bool :=
  decide (sqDist b.x b.y e.x e.y < sq (ENEMY_SIZE + BULLET_SIZE))

/-- The hostile-bullet-vs-player hit test (src line 1562). -/
def bulletHitsPlayer (b : Bullet) (p : Craft) : Bool :=
  decide (sqDist b.x b.y p.x p.y < sq (PLAYER_SIZE + BULLET_SIZE))

/-- The hostile-craft-vs-player hit test (src line 1576). -/
def enemyHitsPlayer (e : Craft) (p : Craft) : Bool :=
  decide (sqDist e.x e.y p.x p.y < sq (PLAYER_SIZE + ENEMY_SIZE))

/-- The inner `for enemy in self.enemies[:]` loop for one friendly bullet
(src lines 1538-1556): scan the hostiles in order, remove the first one
hit and stop (`break`).  `some es` = a hostile was destroyed, `es` the
survivors; `none` = the bullet hit nothing. -/
def resolveBullet (b : Bullet) : List Craft → Option (List Craft)
  | [] => none
  | e :: es =>
    if bulletHitsEnemy b e then some es
    else (resolveBullet b es).map (fun es' => e :: es')

/-- The outer `for bullet in self.bullets[:]` loop (src lines 1537-1556),
threading the live hostile list, the score and the kill counter exactly
as the source mutates them: a hit removes the bullet, removes the first
hostile in range, adds 100 to the score and 1 to the kill count. -/
def resolvePlayerBullets :
    List Bullet → List Craft → ℤ → ℕ → List Bullet × List Craft × ℤ × ℕ
  | [], es, sc, kl => ([], es, sc, kl)
  | b :: bs, es, sc, kl =>
    match resolveBullet b es with
    | some es' => resolvePlayerBullets bs es' (sc + 100) (kl + 1)
    | none =>
      let r := resolvePlayerBullets bs es sc kl
      (b :: r.1, r.2)

/-- `Plane1990._check_collisions` (src lines 1531-1587): nothing happens
without a player; otherwise friendly bullets are resolved against
hostiles first (scoring), then any hostile bullet within range of the
player sets GAME_OVER and returns immediately (skipping the craft-contact
check), then any remaining hostile craft touching the player sets
GAME_OVER. -/
def checkCollisions (s : GState) : GState :=
  match s.player with
  | none => s
  | some p =>
    let r := resolvePlayerBullets s.bullets s.enemies s.score s.enemiesKilled
    let s1 := { s with bullets := r.1, enemies := r.2.1,
                       score := r.2.2.1, enemiesKilled := r.2.2.2 }
    if s1.enemyBullets.any (fun b => bulletHitsPlayer b p) then
      { s1 with state := GameState.GAME_OVER, animationTimer := ANIMATION_DURATION }
    else if s1.enemies.any (fun e => enemyHitsPlayer e p) then
      { s1 with state := GameState.GAME_OVER, animationTimer := ANIMATION_DURATION }
    else s1

/-- First-match decomposition of the inner loop: when a bullet destroys a
hostile, the hostile list splits as `l ++ e :: r` with every hostile in
`l` out of range, `e` the first hostile in range, and exactly `e`
removed. -/
theorem resolveBullet_some (b : Bullet) (es es' : List Craft)
    (h : resolveBullet b es = some es') :
    ∃ l e r, es = l ++ e :: r ∧ es' = l ++ r ∧
      bulletHitsEnemy b e = true ∧ ∀ x ∈ l, bulletHitsEnemy b x = false := by
  induction es generalizing es' with
  | nil => simp [resolveBullet] at h
  | cons e0 es0 ih =>
    by_cases h0 : bulletHitsEnemy b e0
    · refine ⟨[], e0, es0, rfl, ?_, h0, by simp⟩
      simp only [resolveBullet, if_pos h0, Option.some.injEq] at h
      simp [h.symm]
    · simp only [resolveBullet, if_neg h0] at h
      match hrec : resolveBullet b es0 with
      | none => rw [hrec] at h; simp at h
      | some es1 =>
        rw [hrec] at h
        simp only [Option.map_some', Option.some.injEq] at h
        obtain ⟨l, e, r, h1, h2, h3, h4⟩ := ih es1 hrec
        refine ⟨e0 :: l, e, r, by simp [h1], by simp [h.symm, h2], h3, ?_⟩
        intro x hx
        rcases List.mem_cons.mp hx with hx | hx
        · rw [hx]; simp only [Bool.not_eq_true] at h0; exact h0
        · exact h4 x hx

/-- A bullet destroys nothing exactly when no hostile is in range. -/
theorem resolveBullet_none (b : Bullet) (es : List Craft) :
    resolveBullet b es = none ↔ ∀ e ∈ es, bulletHitsEnemy b e = false := by
  induction es with
  | nil => simp [resolveBullet]
  | cons e0 es0 ih =>
    by_cases h0 : bulletHitsEnemy b e0
    · simp [resolveBullet, h0]
    · simp only [Bool.not_eq_true] at h0
      simp [resolveBullet, h0, ih]

/-- Accounting of the scoring phase: there is a number `k` of destroyed
hostiles with the surviving bullets and hostiles sublists of the
originals, one bullet and one hostile consumed per destruction, the score
increased by exactly `100 * k` and the kill counter by exactly `k`. -/
theorem resolvePlayerBullets_spec (bs : List Bullet) (es : List Craft)
    (sc : ℤ) (kl : ℕ) :
    ∃ k : ℕ,
      (resolvePlayerBullets bs es sc kl).1.Sublist bs ∧
      (resolvePlayerBullets bs es sc kl).2.1.Sublist es ∧
      (resolvePlayerBullets bs es sc kl).1.length + k = bs.length ∧
      (resolvePlayerBullets bs es sc kl).2.1.length + k = es.length ∧
      (resolvePlayerBullets bs es sc kl).2.2.1 = sc + 100 * k ∧
      (resolvePlayerBullets bs es sc kl).2.2.2 = kl + k ∧
      k ≤ bs.length := by
  induction bs generalizing es sc kl with
  | nil =>
    exact ⟨0, by simp [resolvePlayerBullets]⟩
  | cons b bs ih =>
    match hr : resolveBullet b es with
    | some es' =>
      obtain ⟨k, h1, h2, h3, h4, h5, h6, h7⟩ := ih es' (sc + 100) (kl + 1)
      obtain ⟨l, e, r, hl1, hl2, -, -⟩ := resolveBullet_some b es es' hr
      have hes : es'.Sublist es := by
        rw [hl1, hl2]
        exact List.Sublist.append (List.Sublist.refl l) (List.sublist_cons_self e r)
      have hlen : es'.length + 1 = es.length := by
        rw [hl1, hl2]
        simp only [List.length_append, List.length_cons]
        omega
      refine ⟨k + 1, ?_, ?_, ?_, ?_, ?_, ?_, ?_⟩ <;>
        try simp only [resolvePlayerBullets, hr]
      · exact h1.trans (List.sublist_cons_self b bs)
      · exact h2.trans hes
      · simp only [List.length_cons]; omega
      · omega
      · rw [h5]; push_cast; ring
      · rw [h6]; omega
      · simp only [List.length_cons]; omega
    | none =>
      obtain ⟨k, h1, h2, h3, h4, h5, h6, h7⟩ := ih es sc kl
      refine ⟨k, ?_, ?_, ?_, ?_, ?_, ?_, ?_⟩ <;>
        try simp only [resolvePlayerBullets, hr]
      · exact h1.cons₂ b
      · exact h2
      · simp only [List.length_cons]; omega
      · exact h4
      · exact h5
      · exact h6
      · simp only [List.length_cons]; omega

theorem checkCollisions_fields (s : GState) (p : Craft) (h : s.player = some p) :
    (checkCollisions s).score =
        (resolvePlayerBullets s.bullets s.enemies s.score s.enemiesKilled).2.2.1 ∧
      (checkCollisions s).enemiesKilled =
        (resolvePlayerBullets s.bullets s.enemies s.score s.enemiesKilled).2.2.2 ∧
      (checkCollisions s).bullets =
        (resolvePlayerBullets s.bullets s.enemies s.score s.enemiesKilled).1 ∧
      (checkCollisions s).enemies =
        (resolvePlayerBullets s.bullets s.enemies s.score s.enemiesKilled).2.1 ∧
      (checkCollisions s).enemyBullets = s.enemyBullets := by
  unfold checkCollisions
  rw [h]
  dsimp only
  split_ifs <;> exact ⟨rfl, rfl, rfl, rfl, rfl⟩

/-- C2.  In one execution of the collision resolver with a live player,
there is a number `k` of destroyed hostiles: the score increases by
exactly `100 * k`, the kill counter by exactly `k`, exactly `k` friendly
projectiles and `k` hostiles are removed (the survivors being sublists of
the originals), `k` never exceeds the number of friendly projectiles (at
most one hostile per projectile), and — final conjunct — each projectile's
scan stops at the first hostile within `ENEMY_SIZE + BULLET_SIZE`
distance, removing exactly that hostile. -/
theorem check_collisions_scoring (s : GState) (p : Craft) (h : s.player = some p) :
    (∃ k : ℕ,
      (checkCollisions s).score = s.score + 100 * k ∧
      (checkCollisions s).enemiesKilled = s.enemiesKilled + k ∧
      (checkCollisions s).bullets.length + k = s.bullets.length ∧
      (checkCollisions s).enemies.length + k = s.enemies.length ∧
      (checkCollisions s).bullets.Sublist s.bullets ∧
      (checkCollisions s).enemies.Sublist s.enemies ∧
      k ≤ s.bullets.length) ∧
    (∀ (b : Bullet) (es es' : List Craft), resolveBullet b es = some es' →
      ∃ l e r, es = l ++ e :: r ∧ es' = l ++ r ∧ bulletHitsEnemy b e = true ∧
        ∀ x ∈ l, bulletHitsEnemy b x = false) := by
  obtain ⟨hsc, hkl, hbs, hes, heb⟩ := checkCollisions_fields s p h
  obtain ⟨k, h1, h2, h3, h4, h5, h6, h7⟩ :=
    resolvePlayerBullets_spec s.bullets s.enemies s.score s.enemiesKilled
  refine ⟨⟨k, ?_, ?_, ?_, ?_, ?_, ?_, h7⟩, fun b es es' => resolveBullet_some b es es'⟩
  · rw [hsc, h5]
  · rw [hkl, h6]
  · rw [hbs, h3]
  · rw [hes, h4]
  · rw [hbs]; exact h1
  · rw [hes]; exact h2

/-- C3.  The resolver scores friendly hits first, then checks hostile
projectiles against the player, then hostile craft against the player:
whenever some hostile projectile is within `PLAYER_SIZE + BULLET_SIZE` of
the player the state becomes GAME_OVER (even on a tick that also
destroyed and scored hostiles: the score increment of the scoring phase
still stands, as the second conjunct shows); when no hostile projectile
is in range but a surviving hostile craft is within
`PLAYER_SIZE + ENEMY_SIZE`, the state likewise becomes GAME_OVER; the
hostile projectile list itself is never consumed by these checks. -/
theorem check_collisions_loss_priority (s : GState) (p : Craft)
    (h : s.player = some p) :
    ((s.enemyBullets.any fun b => bulletHitsPlayer b p) = true →
      (checkCollisions s).state = GameState.GAME_OVER) ∧
    ((s.enemyBullets.any fun b => bulletHitsPlayer b p) = false →
      ((checkCollisions s).enemies.any fun e => enemyHitsPlayer e p) = true →
      (checkCollisions s).state = GameState.GAME_OVER) ∧
    (∃ k : ℕ, (checkCollisions s).score = s.score + 100 * k ∧
      (checkCollisions s).enemiesKilled = s.enemiesKilled + k) ∧
    (checkCollisions s).enemyBullets = s.enemyBullets := by
  obtain ⟨⟨k, hsc, hkl, -, -, -, -, -⟩, -⟩ := check_collisions_scoring s p h
  obtain ⟨-, -, -, hes, heb⟩ := checkCollisions_fields s p h
  refine ⟨?_, ?_, ⟨k, hsc, hkl⟩, heb⟩
  · intro hhit
    unfold checkCollisions
    rw [h]
    dsimp only
    rw [if_pos hhit]
  · intro hmiss hcrash
    rw [hes] at hcrash
    unfold checkCollisions
    rw [h]
    dsimp only
    rw [if_neg (by rw [hmiss]; exact Bool.false_ne_true), if_pos hcrash]

/-- A collision demo: the player's bullet sits on a hostile, and a hostile
bullet sits on the player — a kill and a death on the same tick. -/
def demoCollisionPlayer : Craft := mkCraft 100 0 true

def demoCollisionState : GState :=
  { state := GameState.PLAYING, walls := [],
    player := some demoCollisionPlayer,
    enemies := [mkCraft 0 0 false],
    bullets := [⟨0, 0, 0, true⟩],
    enemyBullets := [⟨100, 0, 180, false⟩],
    currentLevel := 0, score := 0, enemiesKilled := 0, timeSurvived := 0,
    nameInput := "", nameInputActive := false, freeSpawnAreas := [],
    enemySpawnTimer := ENEMY_SPAWN_DELAY, gameTime := 0, levelStartTime := 0,
    isShooting := false, animationTimer := 0, submittedScores := [] }

theorem check_collisions_scoring_witness :
    (∃ k : ℕ,
      (checkCollisions demoCollisionState).score =
        demoCollisionState.score + 100 * k ∧
      (checkCollisions demoCollisionState).enemiesKilled =
        demoCollisionState.enemiesKilled + k ∧
      (checkCollisions demoCollisionState).bullets.length + k =
        demoCollisionState.bullets.length ∧
      (checkCollisions demoCollisionState).enemies.length + k =
        demoCollisionState.enemies.length ∧
      (checkCollisions demoCollisionState).bullets.Sublist
        demoCollisionState.bullets ∧
      (checkCollisions demoCollisionState).enemies.Sublist
        demoCollisionState.enemies ∧
      k ≤ demoCollisionState.bullets.length) ∧
    (∀ (b : Bullet) (es es' : List Craft), resolveBullet b es = some es' →
      ∃ l e r, es = l ++ e :: r ∧ es' = l ++ r ∧ bulletHitsEnemy b e = true ∧
        ∀ x ∈ l, bulletHitsEnemy b x = false) :=
  check_collisions_scoring demoCollisionState demoCollisionPlayer rfl

theorem check_collisions_loss_priority_witness :
    (checkCollisions demoCollisionState).state = GameState.GAME_OVER ∧
    (checkCollisions demoCollisionState).score = 100 := by
  refine ⟨(check_collisions_loss_priority demoCollisionState
      demoCollisionPlayer rfl).1 ?_, ?_⟩
  · norm_num [demoCollisionState, demoCollisionPlayer, bulletHitsPlayer,
      sqDist, sq, mkCraft, PLAYER_SIZE, BULLET_SIZE]
  · norm_num [checkCollisions, demoCollisionState, demoCollisionPlayer,
      resolvePlayerBullets, resolveBullet, bulletHitsEnemy, bulletHitsPlayer,
      enemyHitsPlayer, sqDist, sq, mkCraft, PLAYER_SIZE, BULLET_SIZE, ENEMY_SIZE]

/-! ### Wave spawner (`Plane1990._spawn_enemies`, src lines 1497-1529) -/

/-- `Plane1990._is_position_free` (src lines 886-894): the point must be
outside every wall rectangle inflated by the hardcoded `PLAYER_SIZE` on
both axes. -/
def isPositionFree (walls : List Wall) (x y : ℚ) : Bool :=
  walls.all fun w =>
    let r := w.rect
    ! decide (r.1 - PLAYER_SIZE ≤ x ∧ x ≤ r.2.1 + PLAYER_SIZE ∧
              r.2.2.1 - PLAYER_SIZE ≤ y ∧ y ≤ r.2.2.2 + PLAYER_SIZE)

/-- `Plane1990._is_position_far_from_other_enemies` (src lines 896-902)
with the spawner's `min_distance=150`. -/
def farFromEnemies (enemies : List Craft) (x y : ℚ) : Bool :=
  enemies.all fun e => ! decide (sqDist x y e.x e.y < sq 150)

/-- The acceptance test of one placement attempt (src lines 1512-1519): the
cell must be obstacle-free, at least 150 units from every hostile, and
more than 250 units from the player; with no player the attempt falls
through without spawning. -/
def spawnAccept (s : GState) (pos : ℚ × ℚ) : Bool :=
  isPositionFree s.walls pos.1 pos.2 &&
  farFromEnemies s.enemies pos.1 pos.2 &&
  (match s.player with
   | some p => decide (sq 250 < sqDist pos.1 pos.2 p.x p.y)
   | none => false)

/-- A freshly spawned hostile (src lines 1520-1523): random cardinal
heading, target pinned to it. -/
def mkSpawnedEnemy (pos : ℚ × ℚ) (randAngle : ℚ) : Craft :=
  { mkCraft pos.1 pos.2 false with angle := randAngle, targetAngle := randAngle }

/-- The `for attempt in range(100) ... else` loop (src lines 1506-1529):
each attempt draws a cell (`picks` lists the draws of
`random.choice(self.free_spawn_areas)`); the first accepted cell spawns
one hostile and resets the timer to the nominal delay (`break`); if every
attempt fails the `else` clause halves the retry delay. -/
def spawnAttempts (s : GState) (randAngle : ℚ) : List (ℚ × ℚ) → GState
  | [] => { s with enemySpawnTimer := ENEMY_SPAWN_DELAY / 2 }
  | pos :: rest =>
    if spawnAccept s pos then
      { s with enemies := s.enemies ++ [mkSpawnedEnemy pos randAngle],
               enemySpawnTimer := ENEMY_SPAWN_DELAY }
    else spawnAttempts s randAngle rest

/-- `Plane1990._spawn_enemies` (src lines 1497-1529): no action at
capacity; otherwise the timer counts down and, once expired and with a
nonempty free-cell list, the placement attempts run. -/
def spawnEnemies (s : GState) (dt : ℚ) (targetEnemies : ℕ)
    (picks : List (ℚ × ℚ)) (randAngle : ℚ) : GState :=
  if targetEnemies ≤ s.enemies.length then s
  else
    let s1 := { s with enemySpawnTimer := s.enemySpawnTimer - dt }
    if s1.enemySpawnTimer ≤ 0 ∧ s1.freeSpawnAreas ≠ [] then
      spawnAttempts s1 randAngle picks
    else s1

theorem spawnAttempts_state (s : GState) (randAngle : ℚ) (picks : List (ℚ × ℚ)) :
    (spawnAttempts s randAngle picks).state = s.state := by
  induction picks with
  | nil => rfl
  | cons pos rest ih =>
    unfold spawnAttempts
    split
    · rfl
    · exact ih

theorem spawnAttempts_all_fail (s : GState) (randAngle : ℚ)
    (picks : List (ℚ × ℚ)) (h : ∀ pos ∈ picks, spawnAccept s pos = false) :
    spawnAttempts s randAngle picks =
      { s with enemySpawnTimer := ENEMY_SPAWN_DELAY / 2 } := by
  induction picks with
  | nil => rfl
  | cons pos rest ih =>
    unfold spawnAttempts
    rw [if_neg (by rw [h pos (List.mem_cons_self pos rest)]; exact Bool.false_ne_true)]
    exact ih fun q hq => h q (List.mem_cons_of_mem pos hq)

theorem spawnAttempts_success (s : GState) (randAngle : ℚ)
    (picks : List (ℚ × ℚ)) (h : ∃ pos ∈ picks, spawnAccept s pos = true) :
    (spawnAttempts s randAngle picks).enemySpawnTimer = ENEMY_SPAWN_DELAY ∧
      (spawnAttempts s randAngle picks).enemies.length = s.enemies.length + 1 := by
  induction picks with
  | nil => obtain ⟨pos, hmem, -⟩ := h; exact absurd hmem (List.not_mem_nil pos)
  | cons pos rest ih =>
    unfold spawnAttempts
    by_cases hacc : spawnAccept s pos = true
    · rw [if_pos hacc]
      exact ⟨rfl, by simp⟩
    · rw [if_neg hacc]
      obtain ⟨q, hmem, hq⟩ := h
      rcases List.mem_cons.mp hmem with hq' | hq'
      · exact absurd (hq' ▸ hq) hacc
      · exact ih ⟨q, hq', hq⟩

theorem spawnAttempts_length_le (s : GState) (randAngle : ℚ)
    (picks : List (ℚ × ℚ)) :
    (spawnAttempts s randAngle picks).enemies.length ≤ s.enemies.length + 1 := by
  induction picks with
  | nil => simp [spawnAttempts]
  | cons pos rest ih =>
    unfold spawnAttempts
    split
    · simp
    · exact ih

/-- C6.  The wave spawner never lets the hostile count exceed the target:
at capacity the call returns the state untouched, and below capacity at
most one hostile is admitted, so a count within the target stays within
it.  Once the timer expires with free cells available, the randomized
attempts run: if every drawn cell fails the acceptance test the timer is
reset to exactly half the nominal 2.0-second delay (and no hostile
spawns), while the first accepted cell spawns exactly one hostile and
resets the timer to the nominal delay. -/
theorem spawn_enemies_policy (s : GState) (dt : ℚ) (targetEnemies : ℕ)
    (picks : List (ℚ × ℚ)) (randAngle : ℚ) :
    (targetEnemies ≤ s.enemies.length →
      spawnEnemies s dt targetEnemies picks randAngle = s) ∧
    (s.enemies.length ≤ targetEnemies →
      (spawnEnemies s dt targetEnemies picks randAngle).enemies.length ≤
        targetEnemies) ∧
    (s.enemies.length < targetEnemies → s.enemySpawnTimer - dt ≤ 0 →
      s.freeSpawnAreas ≠ [] →
      (∀ pos ∈ picks, spawnAccept s pos = false) →
      (spawnEnemies s dt targetEnemies picks randAngle).enemySpawnTimer =
          ENEMY_SPAWN_DELAY / 2 ∧
        (spawnEnemies s dt targetEnemies picks randAngle).enemies = s.enemies) ∧
    (s.enemies.length < targetEnemies → s.enemySpawnTimer - dt ≤ 0 →
      s.freeSpawnAreas ≠ [] →
      (∃ pos ∈ picks, spawnAccept s pos = true) →
      (spawnEnemies s dt targetEnemies picks randAngle).enemySpawnTimer =
          ENEMY_SPAWN_DELAY ∧
        (spawnEnemies s dt targetEnemies picks randAngle).enemies.length =
          s.enemies.length + 1) := by
  have haccept : ∀ pos,
      spawnAccept { s with enemySpawnTimer := s.enemySpawnTimer - dt } pos =
        spawnAccept s pos := fun _ => rfl
  refine ⟨?_, ?_, ?_, ?_⟩
  · intro hcap
    unfold spawnEnemies
    rw [if_pos hcap]
  · intro hle
    unfold spawnEnemies
    by_cases hcap : targetEnemies ≤ s.enemies.length
    · rw [if_pos hcap]; exact hle
    · rw [if_neg hcap]
      dsimp only
      split
      · calc (spawnAttempts { s with enemySpawnTimer := s.enemySpawnTimer - dt }
            randAngle picks).enemies.length ≤ s.enemies.length + 1 :=
              spawnAttempts_length_le _ _ _
        _ ≤ targetEnemies := by omega
      · exact hle
  · intro hcap ht hfree hfail
    unfold spawnEnemies
    rw [if_neg (by omega)]
    dsimp only
    rw [if_pos ⟨ht, hfree⟩,
        spawnAttempts_all_fail _ randAngle picks
          (fun pos hp => (haccept pos).trans (hfail pos hp))]
    exact ⟨rfl, rfl⟩
  · intro hcap ht hfree hsucc
    unfold spawnEnemies
    rw [if_neg (by omega)]
    dsimp only
    rw [if_pos ⟨ht, hfree⟩]
    obtain ⟨q, hqm, hq⟩ := hsucc
    exact spawnAttempts_success _ randAngle picks ⟨q, hqm, (haccept q).trans hq⟩

/-- Spawner demo: one free cell far from the lone player, timer expired. -/
def demoSpawnState : GState :=
  { demoCollisionState with
    enemies := [], bullets := [], enemyBullets := [],
    freeSpawnAreas := [(700, 500)], enemySpawnTimer := 0 }

theorem spawn_enemies_policy_witness :
    ((spawnEnemies demoSpawnState 1 3 [(700, 500)] 0).enemySpawnTimer =
        ENEMY_SPAWN_DELAY ∧
      (spawnEnemies demoSpawnState 1 3 [(700, 500)] 0).enemies.length =
        demoSpawnState.enemies.length + 1) ∧
    ((spawnEnemies demoSpawnState 1 0 [(700, 500)] 0) = demoSpawnState) := by
  constructor
  · refine (spawn_enemies_policy demoSpawnState 1 3 [(700, 500)] 0).2.2.2
      (by norm_num [demoSpawnState, demoCollisionState])
      (by norm_num [demoSpawnState, demoCollisionState])
      (by norm_num [demoSpawnState, demoCollisionState])
      ⟨(700, 500), List.mem_singleton.mpr rfl, ?_⟩
    norm_num [spawnAccept, demoSpawnState, demoCollisionState,
      demoCollisionPlayer, isPositionFree, farFromEnemies, sqDist, sq,
      mkCraft, PLAYER_SIZE]
  · exact (spawn_enemies_policy demoSpawnState 1 0 [(700, 500)] 0).1
      (by norm_num [demoSpawnState, demoCollisionState])

/-! ### Per-tick player, hostile and projectile phases
(`Plane.update` src lines 327-350, `Plane.shoot` src lines 455-482,
`Plane1990._update_game` src lines 1428-1495) -/

/-- The active level's time limit (src lines 1435-1441): `LEVELS[i]["time"]`
while levels remain, else 60. -/
def levelTimeInt (i : ℕ) : ℤ :=
  match LEVELS.get? i with
  | some l => l.time
  | none => 60

/-- The active level's hostile target (src lines 1435-1441):
`LEVELS[i]["enemies"]` while levels remain, else `MAX_ENEMIES`. -/
def levelTargetEnemies (i : ℕ) : ℕ :=
  match LEVELS.get? i with
  | some l => l.enemies
  | none => MAX_ENEMIES

/-- The laser-recharge loop of `Plane.update` (src lines 339-344): each
positive timer counts down; one that reaches zero is clamped to 0 and
refunds a charge, capped at `MAX_LASERS`.  Arguments and results pair the
timer list with the charge count. -/
def rechargeLasers (dt : ℚ) : List ℚ → ℕ → List ℚ × ℕ
  | [], n => ([], n)
  | t :: ts, n =>
    if 0 < t then
      let t' := t - dt
      if t' ≤ 0 then
        let r := rechargeLasers dt ts (min (n + 1) MAX_LASERS)
        (0 :: r.1, r.2)
      else
        let r := rechargeLasers dt ts n
        (t' :: r.1, r.2)
    else
      let r := rechargeLasers dt ts n
      (t :: r.1, r.2)

/-- `Plane.update` for the player (src lines 333-350): shot-cooldown
countdown, laser recharge, then `move`. -/
def updatePlayerCraft (p : Craft) (aDeg cosA sinA : ℚ) (walls : List Wall)
    (dt : ℚ) : Craft :=
  let p1 := if 0 < p.shootCooldown then
      { p with shootCooldown := p.shootCooldown - dt } else p
  let r := rechargeLasers dt p1.laserRechargeTimers p1.laserCount
  let p2 := { p1 with laserRechargeTimers := r.1, laserCount := r.2 }
  move p2 aDeg cosA sinA walls

/-- `Plane.update` for a hostile (src lines 346-350): the AI step (skipped
entirely when there is no player, src line 354), then `move`. -/
def updateEnemyCraft (e : Craft) (player : Option Craft)
    (bearing randTarget randTimer cosA sinA : ℚ) (walls : List Wall)
    (dt : ℚ) : Craft :=
  let e1 := match player with
    | some p => updateEnemyAI e p bearing randTarget randTimer walls dt
    | none => e
  move e1 0 cosA sinA walls

/-- The charge-consumption scan of the player's `Plane.shoot` (src lines
461-464): the first non-positive recharge timer is set to
`LASER_COOLDOWN` (`break`). -/
def firstRechargeReset : List ℚ → List ℚ
  | [] => []
  | t :: ts => if t ≤ 0 then LASER_COOLDOWN :: ts else t :: firstRechargeReset ts

/-- `Plane.shoot`, player branch (src lines 457-468). -/
def playerShoot (p : Craft) : Option (Craft × Bullet) :=
  if 0 < p.laserCount ∧ p.shootCooldown ≤ 0 then
    some ({ p with laserRechargeTimers := firstRechargeReset p.laserRechargeTimers,
                   laserCount := p.laserCount - 1,
                   shootCooldown := SHOOT_COOLDOWN },
          ⟨p.x, p.y, p.angle, true⟩)
  else none

/-- `Plane.shoot`, hostile branch (src lines 469-482): fires when the
cooldown expired and the player is seen or homing is active; a homing
hostile with a cached player position aims at it (`aimBearing` stands for
`math.degrees(math.atan2 ...)` toward the cache), otherwise the shot
follows the current heading. -/
def enemyShoot (e : Craft) (aimBearing : ℚ) : Option (Craft × Bullet) :=
  if (e.canSeePlayer ∨ e.isHoming) ∧ e.shootTimer ≤ 0 then
    some ({ e with shootTimer := ENEMY_SHOOT_DELAY },
          ⟨e.x, e.y,
           if e.isHoming ∧ e.lastPlayerPos.isSome then aimBearing else e.angle,
           false⟩)
  else none

/-- Per-hostile random and trigonometric inputs for one tick. -/
structure EnemyRand where
  bearing : ℚ
  randTarget : ℚ
  randTimer : ℚ
  moveCos : ℚ
  moveSin : ℚ
  aim : ℚ
deriving Repr

/-- All abstracted library-call results one `_update_game` tick consumes:
trigonometry for the player, each hostile and each bullet, and the
spawner's random draws. -/
structure Oracle where
  playerA : ℚ
  playerCos : ℚ
  playerSin : ℚ
  enemy : ℕ → EnemyRand
  bulletTrig : ℕ → ℚ × ℚ
  enemyBulletTrig : ℕ → ℚ × ℚ
  picks : List (ℚ × ℚ)
  spawnAngle : ℚ

/-- The hostile loop of `_update_game` (src lines 1466-1477): update each
hostile, cache the player position on it, collect its shot if any. -/
def enemyPhase (enemies : List Craft) (player : Option Craft)
    (walls : List Wall) (o : Oracle) (dt : ℚ) : List Craft × List Bullet :=
  let upd := enemies.enum.map fun ie =>
    let r := o.enemy ie.1
    let e1 := updateEnemyCraft ie.2 player r.bearing r.randTarget r.randTimer
      r.moveCos r.moveSin walls dt
    let e2 := match player with
      | some p => { e1 with lastPlayerPos := some (p.x, p.y) }
      | none => e1
    match enemyShoot e2 r.aim with
    | some er => (er.1, some er.2)
    | none => (e2, none)
  (upd.map Prod.fst, upd.filterMap Prod.snd)

/-- The player block of `_update_game` (src lines 1451-1464): update the
player craft, then fire when the button is held and a charge remains. -/
def playerPhase (s : GState) (o : Oracle) (dt : ℚ) : GState :=
  match s.player with
  | none => s
  | some p =>
    let p1 := updatePlayerCraft p o.playerA o.playerCos o.playerSin s.walls dt
    if s.isShooting ∧ 0 < p1.laserCount then
      match playerShoot p1 with
      | some pb => { s with player := some pb.1, bullets := s.bullets ++ [pb.2] }
      | none => { s with player := some p1 }
    else { s with player := some p1 }

/-- The simulation body of `_update_game` before its final
`_check_collisions` call (src lines 1451-1492): player, hostiles, both
bullet lists, spawner — in the source's order. -/
def preCollisionState (s : GState) (o : Oracle) (dt : ℚ) (targetEnemies : ℕ) :
    GState :=
  let s1 := playerPhase s o dt
  let ep := enemyPhase s1.enemies s1.player s1.walls o dt
  let s2 := { s1 with enemies := ep.1, enemyBullets := s1.enemyBullets ++ ep.2 }
  let s3 := { s2 with bullets := updateBullets s2.bullets o.bulletTrig s2.walls }
  let s4 := { s3 with
              enemyBullets := updateBullets s3.enemyBullets o.enemyBulletTrig s3.walls }
  spawnEnemies s4 dt targetEnemies o.picks o.spawnAngle

/-- The simulation body of `_update_game` after the level-complete check
(src lines 1451-1495): the pre-collision phases, then `_check_collisions`. -/
def updateGameBody (s : GState) (o : Oracle) (dt : ℚ) (targetEnemies : ℕ) :
    GState :=
  checkCollisions (preCollisionState s o dt targetEnemies)

/-- `Plane1990._update_game` (src lines 1428-1495): advance the clocks;
when the elapsed level time reaches the limit, award the survival bonus,
enter LEVEL_COMPLETE and return — skipping the whole simulation body —
else run the body. -/
def updateGame (s : GState) (o : Oracle) (dt : ℚ) : GState :=
  let s1 := { s with gameTime := s.gameTime + dt,
                     timeSurvived := s.timeSurvived + dt }
  if (levelTimeInt s.currentLevel : ℚ) ≤ s1.gameTime - s1.levelStartTime then
    { s1 with score := s1.score + levelTimeInt s.currentLevel * 10,
              state := GameState.LEVEL_COMPLETE,
              animationTimer := ANIMATION_DURATION }
  else updateGameBody s1 o dt (levelTargetEnemies s.currentLevel)

/-- C7.  On a Playing tick whose updated elapsed level time reaches the
level's limit, `_update_game` transitions to LEVEL_COMPLETE and adds
exactly `time_limit * 10` to the score, and nothing else of the state
changes: the resulting record keeps every entity list, timer and flag of
the incoming state, and the result does not depend on the tick's oracle —
the rest of the simulation (entity updates, spawning, collision checks)
is skipped. -/
theorem update_game_level_complete (s : GState) (o : Oracle) (dt : ℚ)
    (h : (levelTimeInt s.currentLevel : ℚ) ≤ s.gameTime + dt - s.levelStartTime) :
    updateGame s o dt =
      { s with gameTime := s.gameTime + dt,
               timeSurvived := s.timeSurvived + dt,
               score := s.score + levelTimeInt s.currentLevel * 10,
               state := GameState.LEVEL_COMPLETE,
               animationTimer := ANIMATION_DURATION } := by
  unfold updateGame
  dsimp only
  rw [if_pos h]

/-- A Playing state 30 seconds into level 1 (limit 30 s). -/
def demoLevelEndState : GState :=
  { demoCollisionState with
    gameTime := 30, levelStartTime := 0, currentLevel := 0 }

/-- An arbitrary tick oracle. -/
def demoOracle : Oracle :=
  { playerA := 0, playerCos := 1, playerSin := 0,
    enemy := fun _ => ⟨0, 0, 0, 1, 0, 0⟩,
    bulletTrig := fun _ => (1, 0), enemyBulletTrig := fun _ => (1, 0),
    picks := [], spawnAngle := 0 }

theorem update_game_level_complete_witness :
    updateGame demoLevelEndState demoOracle 1 =
      { demoLevelEndState with
        gameTime := demoLevelEndState.gameTime + 1,
        timeSurvived := demoLevelEndState.timeSurvived + 1,
        score := demoLevelEndState.score + levelTimeInt 0 * 10,
        state := GameState.LEVEL_COMPLETE,
        animationTimer := ANIMATION_DURATION } :=
  update_game_level_complete demoLevelEndState demoOracle 1
    (by norm_num [demoLevelEndState, demoCollisionState,
      show levelTimeInt 0 = 30 from rfl])

/-! ### High-score loading (`HighScoreManager.load_scores`, src lines
588-611)

A CSV file is a list of rows, each a list of string fields.  Python's
`int(.)` is modelled by `pyInt`; a `none` result at the score or
level field models the `ValueError` the source's single `try` block
catches around the whole reading loop, after which the handler discards
everything read so far (`self.scores = []`).  Rows shorter than four
fields are skipped by the `len(row) >= 4` guard without raising. -/

/-- A decimal digit's value. -/
def digitVal (c : Char) : Option ℕ :=
  if '0' ≤ c ∧ c ≤ '9' then some (c.toNat - '0'.toNat) else none

/-- One or more decimal digits. -/
def parseNatChars : List Char → Option ℕ
  | [] => none
  | cs => cs.foldl (fun acc c => acc.bind fun n => (digitVal c).map fun d => n * 10 + d)
      (some 0)

/-- Python's `int(str)` on the inputs this program meets: an optional sign
followed by decimal digits (`none` models the `ValueError` on anything
else; Python's tolerance for surrounding whitespace and underscores is
not exercised by this model). -/
def pyInt (s : String) : Option ℤ :=
  match s.data with
  | '-' :: cs => (parseNatChars cs).map fun n => -(n : ℤ)
  | '+' :: cs => (parseNatChars cs).map fun n => (n : ℤ)
  | cs => (parseNatChars cs).map fun n => (n : ℤ)

structure ScoreRec where
  name : String
  score : ℤ
  level : ℤ
  date : String
deriving Repr, DecidableEq

/-- One row of the reading loop (src lines 595-603): `some none` = row
skipped by the length guard, `none` = `int()` raised, `some (some q)` =
record parsed. -/
def parseRow (row : List String) : Option (Option ScoreRec) :=
  if 4 ≤ row.length then
    match pyInt ((row[1]?).getD ""), pyInt ((row[2]?).getD "") with
    | some sVal, some lVal =>
        some (some ⟨(row[0]?).getD "", sVal, lVal, (row[3]?).getD ""⟩)
    | _, _ => none
  else some none

/-- The reading loop under the source's single `try` (src lines 592-606):
an exception anywhere makes the handler replace the whole accumulated
list (`none` here, turned into `[]` by `load_scores`). -/
def readRowsAux : List (List String) → Option (List ScoreRec)
  | [] => some []
  | r :: rs =>
    match parseRow r with
    | none => none
    | some none => readRowsAux rs
    | some (some q) => (readRowsAux rs).map (q :: ·)

/-- The comparison of the source's
`sort(key=lambda x: x['score'], reverse=True)`: stable descending by
score. -/
def scoreDescLe (a b : ScoreRec) : Bool := decide (b.score ≤ a.score)

/-- `HighScoreManager.load_scores` (src lines 588-611): read all rows
(collapsing to `[]` if any row raised), sort descending by score, keep
the top 10. -/
def load_scores (rows : List (List String)) : List ScoreRec :=
  (((readRowsAux rows).getD []).mergeSort scoreDescLe).take 10

/-- The well-formed records of a file: rows with at least four fields
whose score and level both parse. -/
def wellFormedRecords (rows : List (List String)) : List ScoreRec :=
  rows.filterMap fun r =>
    match parseRow r with
    | some (some q) => some q
    | _ => none

theorem readRowsAux_all_ok (rows : List (List String))
    (h : ∀ r ∈ rows, parseRow r ≠ none) :
    readRowsAux rows = some (wellFormedRecords rows) := by
  induction rows with
  | nil => rfl
  | cons r rs ih =>
    have hr := h r (List.mem_cons_self r rs)
    have ih' := ih fun q hq => h q (List.mem_cons_of_mem r hq)
    unfold readRowsAux wellFormedRecords
    match hp : parseRow r with
    | none => exact absurd hp hr
    | some none =>
      simp only [hp, List.filterMap_cons]
      unfold wellFormedRecords at ih'
      exact ih'
    | some (some q) =>
      simp only [hp, List.filterMap_cons]
      unfold wellFormedRecords at ih'
      rw [ih']
      rfl

theorem readRowsAux_aborts (rows : List (List String))
    (h : ∃ r ∈ rows, parseRow r = none) :
    readRowsAux rows = none := by
  induction rows with
  | nil => obtain ⟨r, hm, -⟩ := h; exact absurd hm (List.not_mem_nil r)
  | cons r rs ih =>
    unfold readRowsAux
    match hp : parseRow r with
    | none => rfl
    | some none =>
      obtain ⟨q, hm, hq⟩ := h
      rcases List.mem_cons.mp hm with hq' | hq'
      · rw [hq', hp] at hq; exact absurd hq (by simp)
      · exact ih ⟨q, hq', hq⟩
    | some (some v) =>
      obtain ⟨q, hm, hq⟩ := h
      rcases List.mem_cons.mp hm with hq' | hq'
      · rw [hq', hp] at hq; exact absurd hq (by simp)
      · rw [ih ⟨q, hq', hq⟩]
        rfl

theorem scoreDescLe_trans (a b c : ScoreRec) (h1 : scoreDescLe a b = true)
    (h2 : scoreDescLe b c = true) : scoreDescLe a c = true := by
  simp only [scoreDescLe, decide_eq_true_eq] at *
  exact le_trans h2 h1

theorem scoreDescLe_total (a b : ScoreRec) :
    (scoreDescLe a b || scoreDescLe b a) = true := by
  simp only [scoreDescLe, Bool.or_eq_true, decide_eq_true_eq]
  exact le_total b.score a.score

/-- A file whose second row has four fields but a non-integer score: the
source's exception handler throws away the first (well-formed) record,
so the loaded list is empty. -/
def corruptRows : List (List String) :=
  [["alice", "100", "2", "2024-01-01"], ["bob", "oops", "1", "2024-01-02"]]

/-- C8, counterexample.  The first row of `corruptRows` is well formed,
yet `load_scores` returns the empty list: one corrupt record does abort
the whole load, contradicting the claim that malformed rows are skipped
individually and that the result contains exactly the well-formed
records. -/
theorem load_scores_counterexample :
    load_scores corruptRows = [] ∧
    parseRow ["alice", "100", "2", "2024-01-01"] =
      some (some ⟨"alice", 100, 2, "2024-01-01"⟩) ∧
    wellFormedRecords corruptRows = [⟨"alice", 100, 2, "2024-01-01"⟩] := by
  refine ⟨?_, ?_, ?_⟩
  · unfold load_scores
    rw [readRowsAux_aborts corruptRows
      ⟨["bob", "oops", "1", "2024-01-02"],
       List.mem_cons_of_mem _ (List.mem_cons_self _ _), by decide⟩]
    simp
  · decide
  · decide

/-- C8, amended.  Rows with fewer than four fields are skipped
individually.  When every at-least-four-field row parses, the loaded list
is exactly the well-formed records sorted stably descending by score and
truncated to 10 (sortedness and the permutation property included).  But
when any at-least-four-field row fails integer parsing, the exception
aborts the loop and the handler discards everything: the loaded list is
empty. -/
theorem load_scores_amended (rows : List (List String)) :
    ((∀ r ∈ rows, parseRow r ≠ none) →
      load_scores rows =
        ((wellFormedRecords rows).mergeSort scoreDescLe).take 10 ∧
      ((wellFormedRecords rows).mergeSort scoreDescLe).Perm
        (wellFormedRecords rows) ∧
      (load_scores rows).Pairwise (fun a b => b.score ≤ a.score) ∧
      (load_scores rows).length ≤ 10) ∧
    ((∃ r ∈ rows, parseRow r = none) → load_scores rows = []) := by
  constructor
  · intro h
    have he : load_scores rows =
        ((wellFormedRecords rows).mergeSort scoreDescLe).take 10 := by
      unfold load_scores
      rw [readRowsAux_all_ok rows h]
      rfl
    refine ⟨he, List.mergeSort_perm _ _, ?_, ?_⟩
    · rw [he]
      have hs := List.sorted_mergeSort scoreDescLe_trans scoreDescLe_total
        (wellFormedRecords rows)
      have := List.Pairwise.sublist (List.take_sublist 10 _) hs
      exact this.imp fun hab => by
        simpa [scoreDescLe] using hab
    · rw [he]
      exact le_trans (List.length_take_le 10 _) (le_refl 10)
  · intro h
    unfold load_scores
    rw [readRowsAux_aborts rows h]
    simp

/-- A fully well-formed two-row file, out of score order. -/
def goodRows : List (List String) :=
  [["bob", "90", "1", "2024-01-02"], ["alice", "100", "2", "2024-01-01"]]

theorem load_scores_amended_witness :
    (load_scores goodRows =
        ((wellFormedRecords goodRows).mergeSort scoreDescLe).take 10 ∧
      ((wellFormedRecords goodRows).mergeSort scoreDescLe).Perm
        (wellFormedRecords goodRows) ∧
      (load_scores goodRows).Pairwise
        (fun a b => b.score ≤ a.score) ∧
      (load_scores goodRows).length ≤ 10) ∧
    load_scores corruptRows = [] :=
  ⟨(load_scores_amended goodRows).1 (by decide),
   (load_scores_amended corruptRows).2
     ⟨["bob", "oops", "1", "2024-01-02"], by decide, by decide⟩⟩

/-! ### Key input (`Plane1990.on_key_press`, src lines 1589-1622)

Key codes are the pyglet/arcade integers the handler's `int`-annotated
`key` parameter receives. -/

def KEY_R : ℕ := 114
def KEY_W : ℕ := 119
def KEY_A : ℕ := 97
def KEY_S : ℕ := 115
def KEY_D : ℕ := 100
def KEY_ENTER : ℕ := 65293
def KEY_BACKSPACE : ℕ := 65288
def KEY_SPACE : ℕ := 32

/-- The guard `hasattr(key, "char")` of src line 1620: `key` is a Python
`int` (the handler's own annotation, src line 1589), and ints carry no
`char` attribute, so the guard is false for every key code and the
alphanumeric-append branch behind it is dead. -/
def intHasAttrChar (_key : ℕ) : Bool := false

/-- `Plane1990.on_key_press` (src lines 1589-1622).  In the WIN branch:
Enter with a nonempty name submits `(name, score, len(LEVELS))` to the
high-score manager (modelled by appending to `submittedScores`) and
leaves name entry; Backspace drops the last character; Space appends one;
the final `elif hasattr(key, "char") ...` branch never runs. -/
def onKeyPress (s : GState) (key : ℕ) : GState :=
  if s.state = GameState.READY ∧ key = KEY_R then
    { s with state := GameState.PLAYING, levelStartTime := s.gameTime,
             animationTimer := ANIMATION_DURATION }
  else if s.state = GameState.PLAYING ∧ s.player.isSome then
    match s.player with
    | some p =>
      if key = KEY_W then
        { s with player := some (p.setMovement true false false false) }
      else if key = KEY_S then
        { s with player := some (p.setMovement false true false false) }
      else if key = KEY_A then
        { s with player := some (p.setMovement false false true false) }
      else if key = KEY_D then
        { s with player := some (p.setMovement false false false true) }
      else s
    | none => s
  else if s.state = GameState.WIN ∧ s.nameInputActive then
    if key = KEY_ENTER then
      if s.nameInput ≠ "" then
        { s with
          submittedScores :=
            s.submittedScores ++ [(s.nameInput, s.score, LEVELS.length)],
          nameInputActive := false, nameInput := "" }
      else s
    else if key = KEY_BACKSPACE then
      { s with nameInput := s.nameInput.dropRight 1 }
    else if key = KEY_SPACE then
      { s with nameInput := s.nameInput ++ " " }
    else if intHasAttrChar key then
      s
    else s
  else s

/-- C9, code evaluated at the failing input.  In the WIN state with name
entry active, every key other than Enter, Backspace and Space leaves the
whole state unchanged: the `hasattr(key, "char")` guard is false on the
`int` key codes the handler receives, so typed alphanumeric characters
are never appended (the spec's promised append-up-to-15 behavior is dead
code). -/
theorem win_name_entry_no_alnum (s : GState) (key : ℕ)
    (hst : s.state = GameState.WIN) (hact : s.nameInputActive = true)
    (h1 : key ≠ KEY_ENTER) (h2 : key ≠ KEY_BACKSPACE) (h3 : key ≠ KEY_SPACE) :
    onKeyPress s key = s := by
  unfold onKeyPress
  rw [if_neg (by simp [hst]), if_neg (by simp [hst]), if_pos ⟨hst, hact⟩,
      if_neg h1, if_neg h2, if_neg h3, if_neg (by simp [intHasAttrChar])]

/-- A WIN-state session awaiting name entry. -/
def demoWinState : GState :=
  { demoCollisionState with
    state := GameState.WIN, nameInputActive := true, nameInput := "" }

theorem win_name_entry_no_alnum_witness :
    onKeyPress demoWinState KEY_A = demoWinState ∧
    (onKeyPress demoWinState KEY_A).nameInput = "" :=
  ⟨win_name_entry_no_alnum demoWinState KEY_A rfl rfl
      (by decide) (by decide) (by decide),
   by
    rw [win_name_entry_no_alnum demoWinState KEY_A rfl rfl
      (by decide) (by decide) (by decide)]
    rfl⟩

/-! ### Mouse input and the full session step
(`Plane1990.on_mouse_press` src lines 1636-1705, `on_mouse_release` src
lines 1707-1710, `on_mouse_motion` src lines 1712-1734, `on_update` src
lines 1412-1426, `setup` src lines 751-778) -/

/-- A menu button's clickable rectangle (class `Button`, src lines
526-549). -/
structure UIButton where
  x : ℚ
  y : ℚ
  width : ℚ
  height : ℚ
deriving Repr

/-- `Button.is_clicked` (src lines 541-549). -/
def UIButton.isClicked (b : UIButton) (cx cy : ℚ) : Bool :=
  decide (b.x - b.width / 2 ≤ cx ∧ cx ≤ b.x + b.width / 2 ∧
          b.y - b.height / 2 ≤ cy ∧ cy ≤ b.y + b.height / 2)

/-! The buttons of `_create_ui_elements` (src lines 904-938);
`SCREEN_WIDTH // 2 = 400`, `SCREEN_HEIGHT // 2 = 300`. -/

def buttonStart : UIButton := ⟨400, 250, 200, 50⟩
def buttonContinue : UIButton := ⟨400, 100, 200, 50⟩
def buttonRestart : UIButton := ⟨400, 250, 200, 40⟩
def buttonMenu : UIButton := ⟨400, 180, 200, 40⟩
def buttonWinRestart : UIButton := ⟨400, 250, 200, 40⟩
def buttonWinMenu : UIButton := ⟨400, 180, 200, 40⟩
def buttonNextLevel : UIButton := ⟨400, 250, 200, 40⟩
def buttonHighScores : UIButton := ⟨400, 180, 200, 40⟩
def buttonBackToMenu : UIButton := ⟨400, 80, 200, 40⟩

/-- The random results `setup` consumes: the regenerated maze, the derived
free-spawn cells and the validated player spawn. -/
structure RegenData where
  walls : List Wall
  free : List (ℚ × ℚ)
  spawn : ℚ × ℚ

/-- `Plane1990.setup` (src lines 751-778): regenerate the maze and spawn
grid, place a fresh player, clear hostiles and projectiles, reset the
per-level timers, shooting flag and kill counter.  It touches neither
`state`, `current_level`, `score`, `time_survived` nor the name-entry
fields. -/
def setupS (s : GState) (r : RegenData) : GState :=
  { s with
    walls := r.walls, freeSpawnAreas := r.free,
    player := some (mkCraft r.spawn.1 r.spawn.2 true),
    enemies := [], bullets := [], enemyBullets := [],
    enemySpawnTimer := ENEMY_SPAWN_DELAY, gameTime := 0, levelStartTime := 0,
    isShooting := false, enemiesKilled := 0 }

/-- `Plane1990.on_mouse_press` (src lines 1636-1705), with the animation
gate at the top and one branch per session state. -/
def onMousePress (s : GState) (mx my : ℚ) (leftButton : Bool) (r : RegenData) :
    GState :=
  if 0 < s.animationTimer then s
  else match s.state with
  | GameState.MENU =>
    if buttonStart.isClicked mx my then
      { s with state := GameState.RULES, animationTimer := ANIMATION_DURATION }
    else if buttonHighScores.isClicked mx my then
      { s with state := GameState.HIGH_SCORES,
               animationTimer := ANIMATION_DURATION }
    else s
  | GameState.RULES =>
    if buttonContinue.isClicked mx my then
      { setupS { s with currentLevel := 0, score := 0, enemiesKilled := 0,
                        timeSurvived := 0 } r with
        state := GameState.READY, animationTimer := ANIMATION_DURATION }
    else s
  | GameState.GAME_OVER =>
    if buttonRestart.isClicked mx my then
      { setupS s r with state := GameState.RULES,
                        animationTimer := ANIMATION_DURATION }
    else if buttonMenu.isClicked mx my then
      { setupS s r with state := GameState.MENU,
                        animationTimer := ANIMATION_DURATION }
    else s
  | GameState.WIN =>
    if ¬ s.nameInputActive then
      if buttonWinRestart.isClicked mx my then
        { setupS { s with currentLevel := 0, score := 0, enemiesKilled := 0,
                          timeSurvived := 0 } r with
          state := GameState.RULES, animationTimer := ANIMATION_DURATION }
      else if buttonWinMenu.isClicked mx my then
        { setupS s r with state := GameState.MENU,
                          animationTimer := ANIMATION_DURATION }
      else if buttonHighScores.isClicked mx my then
        { s with state := GameState.HIGH_SCORES,
                 animationTimer := ANIMATION_DURATION }
      else s
    else s
  | GameState.LEVEL_COMPLETE =>
    let s1 := if s.currentLevel + 1 < LEVELS.length ∧
        buttonNextLevel.isClicked mx my = true then
        { setupS { s with currentLevel := s.currentLevel + 1 } r with
          state := GameState.READY, animationTimer := ANIMATION_DURATION }
      else s
    if buttonMenu.isClicked mx my then
      { setupS s1 r with state := GameState.MENU,
                         animationTimer := ANIMATION_DURATION }
    else s1
  | GameState.HIGH_SCORES =>
    if buttonBackToMenu.isClicked mx my then
      { s with state := GameState.MENU, animationTimer := ANIMATION_DURATION }
    else s
  | GameState.PLAYING =>
    if leftButton then { s with isShooting := true } else s
  | GameState.READY => s

/-- `Plane1990.on_key_release` (src lines 1624-1634): releasing any of the
four movement keys calls `set_movement` with its one flag false — which,
because `set_movement` assigns all four flags, clears every direction. -/
def onKeyRelease (s : GState) (key : ℕ) : GState :=
  if s.state = GameState.PLAYING ∧ s.player.isSome then
    match s.player with
    | some p =>
      if key = KEY_W then
        { s with player := some (p.setMovement false false false false) }
      else if key = KEY_S then
        { s with player := some (p.setMovement false false false false) }
      else if key = KEY_A then
        { s with player := some (p.setMovement false false false false) }
      else if key = KEY_D then
        { s with player := some (p.setMovement false false false false) }
      else s
    | none => s
  else s

/-- `Plane1990.on_mouse_release` (src lines 1707-1710). -/
def onMouseRelease (s : GState) (leftButton : Bool) : GState :=
  if s.state = GameState.PLAYING ∧ leftButton then
    { s with isShooting := false }
  else s

/-- `Plane1990.on_mouse_motion` (src lines 1712-1734): button hovering
only affects drawing; in PLAYING the player's heading follows the cursor
(`cursorBearing` stands for the `atan2` toward the camera-adjusted cursor
position). -/
def onMouseMotion (s : GState) (cursorBearing : ℚ) : GState :=
  if s.state = GameState.PLAYING then
    match s.player with
    | some p => { s with player := some { p with angle := cursorBearing } }
    | none => s
  else s

/-- `Plane1990.on_update` (src lines 1412-1426): particles and camera are
visual; `_update_game` runs only in PLAYING; a running animation timer is
counted down afterwards. -/
def onTick (s : GState) (o : Oracle) (dt : ℚ) : GState :=
  let s1 := if s.state = GameState.PLAYING then updateGame s o dt else s
  if 0 < s1.animationTimer then
    { s1 with animationTimer := s1.animationTimer - dt }
  else s1

/-- Everything the outside world can do to the session: one simulation
tick or one decoded input event. -/
inductive GEvent where
  | tick (o : Oracle) (dt : ℚ)
  | mousePress (mx my : ℚ) (leftButton : Bool) (r : RegenData)
  | mouseRelease (leftButton : Bool)
  | mouseMotion (cursorBearing : ℚ)
  | keyPress (key : ℕ)
  | keyRelease (key : ℕ)

/-- One step of the session state machine. -/
def step (s : GState) : GEvent → GState
  | GEvent.tick o dt => onTick s o dt
  | GEvent.mousePress mx my lb r => onMousePress s mx my lb r
  | GEvent.mouseRelease lb => onMouseRelease s lb
  | GEvent.mouseMotion cb => onMouseMotion s cb
  | GEvent.keyPress k => onKeyPress s k
  | GEvent.keyRelease k => onKeyRelease s k

/-- `Plane1990.__init__` (src lines 691-749) followed by its `setup()`
call: the session starts in MENU. -/
def initState (r : RegenData) : GState :=
  setupS
    { state := GameState.MENU, walls := [], player := none, enemies := [],
      bullets := [], enemyBullets := [], currentLevel := 0, score := 0,
      enemiesKilled := 0, timeSurvived := 0, nameInput := "",
      nameInputActive := false, freeSpawnAreas := [],
      enemySpawnTimer := ENEMY_SPAWN_DELAY, gameTime := 0, levelStartTime := 0,
      isShooting := false, animationTimer := 0, submittedScores := [] } r

/-! ### Which states each step can produce -/

theorem checkCollisions_state (s : GState) :
    (checkCollisions s).state = s.state ∨
      (checkCollisions s).state = GameState.GAME_OVER := by
  unfold checkCollisions
  cases hp : s.player with
  | none => left; rfl
  | some p =>
    dsimp only
    split_ifs
    · right; rfl
    · right; rfl
    · left; rfl

theorem spawnEnemies_state (s : GState) (dt : ℚ) (target : ℕ)
    (picks : List (ℚ × ℚ)) (a : ℚ) :
    (spawnEnemies s dt target picks a).state = s.state := by
  unfold spawnEnemies
  dsimp only
  split_ifs
  · rfl
  · exact spawnAttempts_state _ _ _
  · rfl

theorem playerPhase_state (s : GState) (o : Oracle) (dt : ℚ) :
    (playerPhase s o dt).state = s.state := by
  unfold playerPhase
  cases hp : s.player with
  | none => rfl
  | some p =>
    dsimp only
    split
    · split <;> rfl
    · rfl

theorem preCollisionState_state (s : GState) (o : Oracle) (dt : ℚ)
    (target : ℕ) :
    (preCollisionState s o dt target).state = s.state := by
  unfold preCollisionState
  dsimp only
  rw [spawnEnemies_state]
  exact playerPhase_state s o dt

theorem updateGameBody_state (s : GState) (o : Oracle) (dt : ℚ) (target : ℕ) :
    (updateGameBody s o dt target).state = s.state ∨
      (updateGameBody s o dt target).state = GameState.GAME_OVER := by
  unfold updateGameBody
  rcases checkCollisions_state (preCollisionState s o dt target) with h | h
  · left
    rw [h]
    exact preCollisionState_state s o dt target
  · right
    exact h

theorem updateGame_state (s : GState) (o : Oracle) (dt : ℚ) :
    (updateGame s o dt).state = s.state ∨
      (updateGame s o dt).state = GameState.LEVEL_COMPLETE ∨
      (updateGame s o dt).state = GameState.GAME_OVER := by
  unfold updateGame
  dsimp only
  split_ifs
  · right; left; rfl
  · rcases updateGameBody_state
        { s with gameTime := s.gameTime + dt,
                 timeSurvived := s.timeSurvived + dt }
        o dt (levelTargetEnemies s.currentLevel) with h | h
    · left
      rw [h]
    · right; right; exact h

theorem onTick_state (s : GState) (o : Oracle) (dt : ℚ) :
    (onTick s o dt).state = s.state ∨
      (onTick s o dt).state = GameState.LEVEL_COMPLETE ∨
      (onTick s o dt).state = GameState.GAME_OVER := by
  unfold onTick
  dsimp only
  split_ifs <;> first | (left; rfl) | (exact updateGame_state s o dt)

theorem onMousePress_state (s : GState) (mx my : ℚ) (lb : Bool)
    (r : RegenData) :
    (onMousePress s mx my lb r).state = s.state ∨
      (onMousePress s mx my lb r).state ≠ GameState.WIN := by
  unfold onMousePress
  by_cases ha : 0 < s.animationTimer
  · rw [if_pos ha]; left; rfl
  · rw [if_neg ha]
    cases hst : s.state <;> dsimp only <;>
      first
        | (split_ifs <;> first | (left; exact hst) | (right; simp))
        | (left; exact hst)

theorem onKeyPress_state (s : GState) (key : ℕ) :
    (onKeyPress s key).state = s.state ∨
      (onKeyPress s key).state = GameState.PLAYING := by
  unfold onKeyPress
  by_cases h1 : s.state = GameState.READY ∧ key = KEY_R
  · rw [if_pos h1]; right; rfl
  · rw [if_neg h1]
    by_cases h2 : s.state = GameState.PLAYING ∧ s.player.isSome = true
    · rw [if_pos h2]
      cases hp : s.player
      · left; rfl
      · dsimp only
        split_ifs <;> left <;> rfl
    · rw [if_neg h2]
      by_cases h3 : s.state = GameState.WIN ∧ s.nameInputActive = true
      · rw [if_pos h3]
        split_ifs <;> left <;> rfl
      · rw [if_neg h3]; left; rfl

theorem onKeyRelease_state (s : GState) (key : ℕ) :
    (onKeyRelease s key).state = s.state := by
  unfold onKeyRelease
  by_cases h1 : s.state = GameState.PLAYING ∧ s.player.isSome = true
  · rw [if_pos h1]
    cases hp : s.player
    · rfl
    · dsimp only
      split_ifs <;> rfl
  · rw [if_neg h1]

theorem onMouseRelease_state (s : GState) (lb : Bool) :
    (onMouseRelease s lb).state = s.state := by
  unfold onMouseRelease
  split_ifs <;> rfl

theorem onMouseMotion_state (s : GState) (cb : ℚ) :
    (onMouseMotion s cb).state = s.state := by
  unfold onMouseMotion
  split_ifs
  · cases hp : s.player <;> rfl
  · rfl

/-- No transition of the session state machine introduces the WIN state:
if a step lands in WIN, the machine was already there. -/
theorem step_preserves_no_win (s : GState) (e : GEvent)
    (h : (step s e).state = GameState.WIN) : s.state = GameState.WIN := by
  cases e with
  | tick o dt =>
    simp only [step] at h
    rcases onTick_state s o dt with h' | h' | h'
    · rw [← h']; exact h
    · exact absurd (h'.symm.trans h) (by decide)
    · exact absurd (h'.symm.trans h) (by decide)
  | mousePress mx my lb r =>
    simp only [step] at h
    rcases onMousePress_state s mx my lb r with h' | h'
    · rw [← h']; exact h
    · exact absurd h h'
  | mouseRelease lb =>
    simp only [step] at h
    rw [← onMouseRelease_state s lb]; exact h
  | mouseMotion cb =>
    simp only [step] at h
    rw [← onMouseMotion_state s cb]; exact h
  | keyPress k =>
    simp only [step] at h
    rcases onKeyPress_state s k with h' | h'
    · rw [← h']; exact h
    · exact absurd (h'.symm.trans h) (by decide)
  | keyRelease k =>
    simp only [step] at h
    rw [← onKeyRelease_state s k]; exact h

/-- C10.  From the MENU start, no sequence of ticks and input events ever
reaches the WIN state — no handler or tick update assigns it — and in
particular, on the final level's LEVEL_COMPLETE screen a mouse press can
only leave the state where it is or return to MENU (the next-level button
is not offered), so the WIN screen and its name-entry flow are
unreachable. -/
theorem win_unreachable :
    (∀ (r : RegenData) (evs : List GEvent),
      (evs.foldl step (initState r)).state ≠ GameState.WIN) ∧
    (∀ (s : GState) (mx my : ℚ) (lb : Bool) (r : RegenData),
      s.state = GameState.LEVEL_COMPLETE →
      LEVELS.length ≤ s.currentLevel + 1 →
      (onMousePress s mx my lb r).state = GameState.LEVEL_COMPLETE ∨
        (onMousePress s mx my lb r).state = GameState.MENU) := by
  constructor
  · intro r evs
    suffices hgen : ∀ (s : GState), s.state ≠ GameState.WIN →
        (evs.foldl step s).state ≠ GameState.WIN from
      hgen (initState r) (by
        rw [show (initState r).state = GameState.MENU from rfl]
        decide)
    induction evs with
    | nil => exact fun s hs => hs
    | cons e es ih =>
      intro s hs
      exact ih (step s e) fun hw => hs (step_preserves_no_win s e hw)
  · intro s mx my lb r hst hlev
    unfold onMousePress
    by_cases ha : 0 < s.animationTimer
    · rw [if_pos ha]; left; exact hst
    · rw [if_neg ha]
      rw [hst]
      dsimp only
      have hn : ¬ (s.currentLevel + 1 < LEVELS.length ∧
          buttonNextLevel.isClicked mx my = true) := by
        rintro ⟨hlt, -⟩
        omega
      rw [if_neg hn]
      by_cases hm : buttonMenu.isClicked mx my
      · rw [if_pos hm]; right; rfl
      · rw [if_neg (by simp [hm])]; left; exact hst

def demoRegen : RegenData := ⟨[], [], (400, 300)⟩

/-- A LEVEL_COMPLETE screen on the final level. -/
def demoFinalLevelComplete : GState :=
  { demoCollisionState with
    state := GameState.LEVEL_COMPLETE, currentLevel := 3, animationTimer := 0 }

theorem win_unreachable_witness :
    (([] : List GEvent).foldl step (initState demoRegen)).state ≠
      GameState.WIN ∧
    ((onMousePress demoFinalLevelComplete 400 180 true demoRegen).state =
        GameState.LEVEL_COMPLETE ∨
      (onMousePress demoFinalLevelComplete 400 180 true demoRegen).state =
        GameState.MENU) :=
  ⟨win_unreachable.1 demoRegen [],
   win_unreachable.2 demoFinalLevelComplete 400 180 true demoRegen rfl
     (by decide)⟩

end Plane1990
